import Mathlib

/-!
Verification of the cinder volume-service client layer
(nova/volume/cinder/cinder.py): endpoint selection, locator parsing,
retry-on-connection-error, cursor pagination, metadata translation with
JSON-encoded structured properties, ownership-based visibility, and
remote-exception translation.  Python values are modelled by a mutual
inductive JSON family plus datetime objects; Python dicts by association
lists with first-match lookup and in-place update; raised exceptions by
Except.  The JSON serializer/parser pair models the json.dumps/json.loads
library contract used by the metadata translator.
-/


mutual
inductive Json where
  | null
  | jbool (b : Bool)
  | jnum (n : Int)
  | jstr (s : String)
  | arr (xs : JArr)
  | obj (kvs : JObj)
deriving DecidableEq
inductive JArr where
  | nil
  | cons (hd : Json) (tl : JArr)
deriving DecidableEq
inductive JObj where
  | nil
  | cons (k : String) (v : Json) (tl : JObj)
deriving DecidableEq
end

/-- Decimal digit character for a digit value below ten. -/
def dChar (d : Nat) : Char := Char.ofNat (48 + d)

/-- Digit test on a character, by code point (models str.isdigit for ASCII). -/
def isDigitCh (c : Char) : Bool := decide (48 ≤ c.toNat) && decide (c.toNat ≤ 57)

/-- Numeric value of a digit character. -/
def dVal (c : Char) : Nat := c.toNat - 48

/-- Little-endian decimal digits of a number, with fuel for structural recursion. -/
def natDigitsLE : Nat → Nat → List Nat
  | 0, _ => []
  | _ + 1, 0 => []
  | fuel + 1, n + 1 => ((n + 1) % 10) :: natDigitsLE fuel ((n + 1) / 10)

/-- Decimal digit characters of a number, most significant first. -/
def natChars (n : Nat) : List Char :=
  if n = 0 then ['0'] else ((natDigitsLE n n).reverse).map dChar

/-- Decimal representation of an integer, as produced by json serialization. -/
def intChars (n : Int) : List Char :=
  if n < 0 then '-' :: natChars n.natAbs else natChars n.toNat

/-- String-body escaping: backslash-escape quote and backslash characters. -/
def escChars : List Char → List Char
  | [] => []
  | c :: cs => if c = '"' ∨ c = '\\' then '\\' :: c :: escChars cs else c :: escChars cs

mutual
/-- Serialize a value to JSON text (models Python json.dumps, without optional
whitespace and with minimal string escaping). -/
def dumpJson : Json → List Char
  | .null => ['n', 'u', 'l', 'l']
  | .jbool true => ['t', 'r', 'u', 'e']
  | .jbool false => ['f', 'a', 'l', 's', 'e']
  | .jnum n => intChars n
  | .jstr s => '"' :: escChars s.data ++ ['"']
  | .arr xs => '[' :: dumpABody xs
  | .obj kvs => '{' :: dumpOBody kvs

/-- Array body after the opening bracket: first element then separated rest. -/
def dumpABody : JArr → List Char
  | .nil => [']']
  | .cons hd tl => dumpJson hd ++ dumpASep tl

/-- Array continuation: comma-prefixed elements up to the closing bracket. -/
def dumpASep : JArr → List Char
  | .nil => [']']
  | .cons hd tl => ',' :: dumpJson hd ++ dumpASep tl

/-- Object body after the opening brace. -/
def dumpOBody : JObj → List Char
  | .nil => ['\x7d']
  | .cons k v tl => '"' :: escChars k.data ++ '"' :: ':' :: dumpJson v ++ dumpOSep tl

/-- Object continuation: comma-prefixed members up to the closing brace. -/
def dumpOSep : JObj → List Char
  | .nil => ['\x7d']
  | .cons k v tl => ',' :: '"' :: escChars k.data ++ '"' :: ':' :: dumpJson v ++ dumpOSep tl
end

/-- Longest digit prefix of the input together with the remainder. -/
def takeDigits : List Char → List Char × List Char
  | [] => ([], [])
  | c :: cs =>
    if isDigitCh c then
      let p := takeDigits cs
      (c :: p.1, p.2)
    else ([], c :: cs)

/-- Value of a most-significant-first digit-character list. -/
def digitsVal (ds : List Char) : Nat := ds.foldl (fun a c => 10 * a + dVal c) 0

/-- Parse a string body up to an unescaped closing quote; the quote is consumed. -/
def parseStrBody : List Char → Option (List Char × List Char)
  | [] => none
  | c :: cs =>
    if c = '"' then some ([], cs)
    else if c = '\\' then
      match cs with
      | [] => none
      | e :: cs2 =>
        match parseStrBody cs2 with
        | none => none
        | some p => some (e :: p.1, p.2)
    else
      match parseStrBody cs with
      | none => none
      | some p => some (c :: p.1, p.2)

mutual
/-- Fueled recursive-descent JSON parser; returns value and unconsumed input. -/
def parseJson : Nat → List Char → Option (Json × List Char)
  | 0, _ => none
  | _ + 1, [] => none
  | fuel + 1, c :: cs1 =>
      if c = 'n' then
        match cs1 with
        | 'u' :: 'l' :: 'l' :: rest => some (.null, rest)
        | _ => none
      else if c = 't' then
        match cs1 with
        | 'r' :: 'u' :: 'e' :: rest => some (.jbool true, rest)
        | _ => none
      else if c = 'f' then
        match cs1 with
        | 'a' :: 'l' :: 's' :: 'e' :: rest => some (.jbool false, rest)
        | _ => none
      else if c = '"' then
        match parseStrBody cs1 with
        | none => none
        | some p => some (.jstr (String.mk p.1), p.2)
      else if c = '[' then
        match parseArrItems fuel cs1 with
        | none => none
        | some p => some (.arr p.1, p.2)
      else if c = '{' then
        match parseObjItems fuel cs1 with
        | none => none
        | some p => some (.obj p.1, p.2)
      else if c = '-' then
        let p := takeDigits cs1
        match p.1 with
        | [] => none
        | _ :: _ => some (.jnum (-(digitsVal p.1 : Int)), p.2)
      else if isDigitCh c then
        let p := takeDigits (c :: cs1)
        some (.jnum (digitsVal p.1 : Int), p.2)
      else none

/-- Parse array items after the opening bracket, through the closing bracket. -/
def parseArrItems : Nat → List Char → Option (JArr × List Char)
  | 0, _ => none
  | _ + 1, [] => none
  | fuel + 1, c :: cs1 =>
      if c = ']' then some (.nil, cs1)
      else
        match parseJson fuel (c :: cs1) with
        | none => none
        | some p =>
          match p.2 with
          | [] => none
          | c2 :: cs2 =>
            if c2 = ',' then
              match parseArrItems fuel cs2 with
              | none => none
              | some q => some (.cons p.1 q.1, q.2)
            else if c2 = ']' then some (.cons p.1 .nil, cs2)
            else none

/-- Parse object members after the opening brace, through the closing brace. -/
def parseObjItems : Nat → List Char → Option (JObj × List Char)
  | 0, _ => none
  | _ + 1, [] => none
  | fuel + 1, c :: cs1 =>
      if c = '\x7d' then some (.nil, cs1)
      else if c = '"' then
        match parseStrBody cs1 with
        | none => none
        | some kp =>
          match kp.2 with
          | [] => none
          | c2 :: cs2 =>
            if c2 = ':' then
              match parseJson fuel cs2 with
              | none => none
              | some vp =>
                match vp.2 with
                | [] => none
                | c3 :: cs3 =>
                  if c3 = ',' then
                    match parseObjItems fuel cs3 with
                    | none => none
                    | some tp => some (.cons (String.mk kp.1) vp.1 tp.1, tp.2)
                  else if c3 = '\x7d' then some (.cons (String.mk kp.1) vp.1 .nil, cs3)
                  else none
            else none
      else none
end

mutual
/-- Fuel needed by the parser on the serialization of a value. -/
def jfuel : Json → Nat
  | .null => 1
  | .jbool _ => 1
  | .jnum _ => 1
  | .jstr _ => 1
  | .arr xs => 1 + afuel xs
  | .obj kvs => 1 + ofuel kvs

/-- Fuel needed by the array-items parser on a serialized array body. -/
def afuel : JArr → Nat
  | .nil => 1
  | .cons hd tl => 1 + max (jfuel hd) (afuel tl)

/-- Fuel needed by the object-members parser on a serialized object body. -/
def ofuel : JObj → Nat
  | .nil => 1
  | .cons _ v tl => 1 + max (jfuel v) (ofuel tl)
end

/-- The remainder after a serialized value never starts with a digit. -/
def noDigitHead : List Char → Prop
  | [] => True
  | c :: _ => isDigitCh c = false

/-- Value of a little-endian digit list. -/
def natFromLE : List Nat → Nat
  | [] => 0
  | d :: ds => d + 10 * natFromLE ds

/-- Models Python json.dumps on a JSON-serializable value. -/
def jdumps (v : Json) : String := String.mk (dumpJson v)

/-- Models Python json.loads: parse JSON text, requiring full consumption. -/
def jloads (s : String) : Option Json :=
  match parseJson (s.data.length + 1) s.data with
  | some (v, []) => some v
  | _ => none

structure PyDatetime where
  year : Nat
  month : Nat
  day : Nat
  hour : Nat
  minute : Nat
  second : Nat
  microsecond : Nat

deriving DecidableEq

/-- A value stored in a volume-metadata dict: a JSON-ish value, a nested
properties dict, or a datetime object. -/
inductive MVal where
  | jsn (j : Json)
  | dict (p : List (String × Json))
  | dtime (t : PyDatetime)

deriving DecidableEq

abbrev PyDict := List (String × MVal)

/-- The cinder_exception classes consumed by this module. -/
inductive CinderExc where
  | forbidden
  | notAuthenticated
  | missingCredentialError
  | notFound
  | invalid (detail : String)
  | clientConnectionError
  | other (detail : String)

deriving DecidableEq

/-- The exceptions this module can raise or pass through. -/
inductive PyExc where
  | cinder (e : CinderExc)
  | volumeNotAuthorized (volume_id : String)
  | volumeNotFound (volume_id : String)
  | invalid (detail : String)
  | notAuthorized
  | notFound
  | cinderConnectionFailed
  | volumePaginationFailed
  | invalidVolumeRef (volume_href : String)
  | indexError
  | keyError (key : String)
  | typeError
  | valueError

deriving DecidableEq

/-- Python truthiness of a JSON-ish value. -/
def truthyJ : Json → Bool
  | .null => false
  | .jbool b => b
  | .jnum n => decide (n ≠ 0)
  | .jstr s => decide (s ≠ (""))
  | .arr .nil => false
  | .arr (.cons _ _) => true
  | .obj .nil => false
  | .obj (.cons _ _ _) => true

/-- Python truthiness of a metadata value. -/
def truthyM : MVal → Bool
  | .jsn j => truthyJ j
  | .dict p => decide (p ≠ [])
  | .dtime _ => true

/-- Python truthiness of a string attribute that may be None. -/
def truthyOptStr : Option String → Bool
  | none => false
  | some s => decide (s ≠ (""))

/-- First-match association lookup (Python dict indexing; keys are unique in
dicts built by the code under study). -/
def dget? {α : Type} : List (String × α) → String → Option α
  | [], _ => none
  | kv :: rest, k => if kv.1 = k then some kv.2 else dget? rest k

/-- Python dict .get with default None. -/
def dgetJ (p : List (String × Json)) (k : String) : Json := (dget? p k).getD .null

/-- Python dict .get with default None, for metadata dicts. -/
def dgetM (m : PyDict) (k : String) : MVal := (dget? m k).getD (.jsn .null)

/-- Python `key in dict`. -/
def dmem {α : Type} (m : List (String × α)) (k : String) : Bool := (dget? m k).isSome

/-- Python dict assignment: replace the first binding or append a new one. -/
def dset {α : Type} : List (String × α) → String → α → List (String × α)
  | [], k, v => [(k, v)]
  | kv :: rest, k, v => if kv.1 = k then (k, v) :: rest else kv :: dset rest k v

mutual
/-- Python repr of a JSON-ish value (string quoting without escaping;
adequate for the equality comparisons this module performs). -/
def pyRepr : Json → List Char
  | .null => ['N', 'o', 'n', 'e']
  | .jbool true => ['T', 'r', 'u', 'e']
  | .jbool false => ['F', 'a', 'l', 's', 'e']
  | .jnum n => intChars n
  | .jstr s => '\'' :: s.data ++ ['\'']
  | .arr xs => '[' :: pyReprA xs
  | .obj kvs => '{' :: pyReprO kvs

/-- repr of list elements after the opening bracket. -/
def pyReprA : JArr → List Char
  | .nil => [']']
  | .cons hd tl => pyRepr hd ++ pyReprASep tl

/-- repr of remaining list elements. -/
def pyReprASep : JArr → List Char
  | .nil => [']']
  | .cons hd tl => ',' :: ' ' :: pyRepr hd ++ pyReprASep tl

/-- repr of dict members after the opening brace. -/
def pyReprO : JObj → List Char
  | .nil => ['\x7d']
  | .cons k v tl => '\'' :: k.data ++ '\'' :: ':' :: ' ' :: pyRepr v ++ pyReprOSep tl

/-- repr of remaining dict members. -/
def pyReprOSep : JObj → List Char
  | .nil => ['\x7d']
  | .cons k v tl => ',' :: ' ' :: '\'' :: k.data ++ '\'' :: ':' :: ' ' :: pyRepr v ++ pyReprOSep tl
end

/-- Python str() of a JSON-ish value. -/
def pyStrJ : Json → String
  | .jstr s => s
  | v => String.mk (pyRepr v)

/-- Python str() of a string attribute that may be None. -/
def pyStrOpt : Option String → String
  | none => "None"
  | some s => s

/-- Python == between a string-or-None attribute and a JSON-ish value. -/
def pyEqOptJson : Option String → Json → Bool
  | some s, .jstr t => decide (s = t)
  | none, .null => true
  | _, _ => false

/-- The request context attributes this module reads. -/
structure RequestContext where
  auth_token : Option String
  is_admin : Bool
  project_id : Option String
  user_id : Option String

deriving DecidableEq

/-- Faithful embedding of cindervolumeService._is_volume_available.  A
non-dict properties value makes every ownership test raise TypeError, which
the source does not catch. -/
def isVolumeAvailable (context : RequestContext) (volume_meta : PyDict) : Except PyExc Bool :=
  if truthyOptStr context.auth_token then .ok true
  else if context.is_admin then .ok true
  else
    match dget? volume_meta ("properties") with
    | none => .error (.keyError ("properties"))
    | some (.dict properties) =>
      if truthyOptStr context.project_id && dmem properties ("owner_id") then
        .ok (decide (pyStrJ (dgetJ properties ("owner_id")) = pyStrOpt context.project_id))
      else if truthyOptStr context.project_id && dmem properties ("project_id") then
        .ok (decide (pyStrJ (dgetJ properties ("project_id")) = pyStrOpt context.project_id))
      else
        match dget? properties ("user_id") with
        | none => .ok false
        | some u => .ok (decide (pyStrJ u = pyStrOpt context.user_id))
    | some _ => .error .typeError

/-- Python str.split on a single-character separator. -/
def splitChar (sep : Char) : List Char → List (List Char)
  | [] => [[]]
  | c :: cs =>
    let r := splitChar sep cs
    if c = sep then [] :: r
    else
      match r with
      | [] => [[c]]
      | g :: gs => (c :: g) :: gs

/-- Python int() on a decimal-digit string. -/
def toNatQ (cs : List Char) : Option Nat :=
  if cs.isEmpty then none
  else if cs.all isDigitCh then some (digitsVal cs) else none

/-- Models datetime.strptime for the two iso8601 signatures accepted by
_parse_cinder_iso8601_timestamp (field ranges are not re-validated). -/
def parsePyDatetime (s : String) : Option PyDatetime :=
  match splitChar 'T' s.data with
  | [d, t] =>
    match splitChar '-' d, splitChar ':' t with
    | [y, mo, da], [h, mi, rest] =>
      match splitChar '.' rest with
      | [se] =>
        match toNatQ y, toNatQ mo, toNatQ da, toNatQ h, toNatQ mi, toNatQ se with
        | some y1, some mo1, some da1, some h1, some mi1, some se1 =>
          some ⟨y1, mo1, da1, h1, mi1, se1, 0⟩
        | _, _, _, _, _, _ => none
      | [se, fr] =>
        match toNatQ y, toNatQ mo, toNatQ da, toNatQ h, toNatQ mi, toNatQ se, toNatQ fr with
        | some y1, some mo1, some da1, some h1, some mi1, some se1, some fr1 =>
          some ⟨y1, mo1, da1, h1, mi1, se1, fr1⟩
        | _, _, _, _, _, _, _ => none
      | _ => none
    | _, _ => none
  | _ => none

/-- One attribute step of _convert_timestamps_to_datetimes: a truthy value is
parsed with strptime, which raises TypeError on a non-string and ValueError
(from _parse_cinder_iso8601_timestamp) on an unparseable string. -/
def convertTimestampAttr (volume_meta : PyDict) (attr : String) : Except PyExc PyDict :=
  if truthyM (dgetM volume_meta attr) then
    match dgetM volume_meta attr with
    | .jsn (.jstr s) =>
      match parsePyDatetime s with
      | some t => .ok (dset volume_meta attr (.dtime t))
      | none => .error .valueError
    | _ => .error .typeError
  else .ok volume_meta

/-- Faithful embedding of _convert_timestamps_to_datetimes. -/
def convertTimestampsToDatetimes (volume_meta : PyDict) : Except PyExc PyDict := do
  let m1 ← convertTimestampAttr volume_meta ("created_at")
  let m2 ← convertTimestampAttr m1 ("updated_at")
  convertTimestampAttr m2 ("deleted_at")

/-- Faithful embedding of _json_dumps on one property slot. -/
def jsonDumpsProp (properties : List (String × Json)) (attr : String) : List (String × Json) :=
  match dget? properties attr with
  | some (.jstr _) => properties
  | some prop => dset properties attr (.jstr (jdumps prop))
  | none => properties

/-- Faithful embedding of _json_loads on one property slot; json.loads raises
ValueError on unparseable text. -/
def jsonLoadsProp (properties : List (String × Json)) (attr : String) :
    Except PyExc (List (String × Json)) :=
  match dget? properties attr with
  | some (.jstr s) =>
    match jloads s with
    | some v => .ok (dset properties attr v)
    | none => .error .valueError
  | _ => .ok properties

/-- Faithful embedding of _convert (the deep copy is implicit in the pure
model); Python `attr in properties` raises TypeError when a truthy
non-dict sits in the properties slot. -/
def convertWith (method : List (String × Json) → String → Except PyExc (List (String × Json)))
    (metadata : PyDict) : Except PyExc PyDict :=
  match dget? metadata ("properties") with
  | some (.dict properties) =>
    if truthyM (.dict properties) then do
      let p1 ← (if dmem properties ("block_device_mapping") then
          method properties ("block_device_mapping") else .ok properties)
      let p2 ← (if dmem p1 ("mappings") then method p1 ("mappings") else .ok p1)
      .ok (dset metadata ("properties") (.dict p2))
    else .ok metadata
  | some pv => if truthyM pv then .error .typeError else .ok metadata
  | none => .ok metadata

/-- Faithful embedding of _convert_from_string. -/
def convertFromString (metadata : PyDict) : Except PyExc PyDict :=
  convertWith jsonLoadsProp metadata

/-- Faithful embedding of _convert_to_string. -/
def convertToString (metadata : PyDict) : Except PyExc PyDict :=
  convertWith (fun p a => .ok (jsonDumpsProp p a)) metadata

/-- The fixed attribute list of _limit_attributes, spelled as in the source
(note the misspelling atached). -/
def volume_ATTRIBUTES : List String :=
  [("id"), ("size"), ("display_name"), ("created_at"), ("updated_at"), ("deleted_at"),
   ("deleted"), ("status"), ("atached")]

/-- Faithful embedding of _limit_attributes. -/
def limitAttributes (volume_meta : PyDict) : PyDict :=
  (volume_ATTRIBUTES.map (fun attr => (attr, dgetM volume_meta attr)))
    ++ [(("properties"), (dget? volume_meta ("properties")).getD (.dict []))]

/-- Faithful embedding of cindervolumeService._translate_to_cinder. -/
def translateToCinder (volume_meta : PyDict) : Except PyExc PyDict :=
  convertToString volume_meta

/-- Faithful embedding of cindervolumeService._translate_from_cinder. -/
def translateFromCinder (volume_meta : PyDict) : Except PyExc PyDict := do
  let m1 := limitAttributes volume_meta
  let m2 ← convertTimestampsToDatetimes m1
  convertFromString m2

/-- Faithful embedding of _translate_volume_exception. -/
def translateVolumeException (volume_id : String) (e : PyExc) : PyExc :=
  match e with
  | .cinder .forbidden => .volumeNotAuthorized volume_id
  | .cinder .notAuthenticated => .volumeNotAuthorized volume_id
  | .cinder .missingCredentialError => .volumeNotAuthorized volume_id
  | .cinder .notFound => .volumeNotFound volume_id
  | .cinder (.invalid d) => .invalid d
  | ex => ex

/-- Faithful embedding of _translate_plain_exception. -/
def translatePlainException (e : PyExc) : PyExc :=
  match e with
  | .cinder .forbidden => .notAuthorized
  | .cinder .notAuthenticated => .notAuthorized
  | .cinder .missingCredentialError => .notAuthorized
  | .cinder .notFound => .notFound
  | .cinder (.invalid d) => .invalid d
  | ex => ex

/-- Outcome of a single remote attempt inside the retry loop. -/
inductive CallOutcome (α : Type) where
  | ok (v : α)
  | connError
  | raise (e : PyExc)

/-- Result of _call_retry, carrying the number of attempts made. -/
inductive RetryResult (α : Type) where
  | ok (v : α) (attempts : Nat)
  | connFailed (attempts : Nat)
  | raised (e : PyExc) (attempts : Nat)

deriving DecidableEq

/-- The loop of _call_retry: remaining iterations and attempts made so far.
Each iteration re-resolves the client; the attempt function is indexed by the
attempt number. -/
def callRetryAux {α : Type} (attempt : Nat → CallOutcome α) : Nat → Nat → RetryResult α
  | 0, i => .connFailed i
  | n + 1, i =>
    match attempt i with
    | .ok v => .ok v (i + 1)
    | .connError => callRetryAux attempt n (i + 1)
    | .raise e => .raised e (i + 1)

/-- Faithful embedding of cindervolumeService._call_retry: the loop body runs
cinder_num_retries + 1 times; only ClientConnectionError is caught and
retried; exhaustion raises cinderConnectionFailed. -/
def callRetry {α : Type} (attempt : Nat → CallOutcome α) (cinder_num_retries : Nat) :
    RetryResult α :=
  callRetryAux attempt (cinder_num_retries + 1) 0

/-- A pinned remote client handle: the remote calls the facade consumes. -/
structure CinderClient where
  get_volume_meta : String → Except PyExc PyDict
  get_volume : String → Except PyExc (PyDict × List String)
  update_volume : String → PyDict → Except PyExc PyDict
  delete_volume : String → Except PyExc Unit

/-- Classify a deterministic remote call as a retry-loop outcome. -/
def outcomeOf {α : Type} (r : Except PyExc α) : CallOutcome α :=
  match r with
  | .ok v => .ok v
  | .error (.cinder .clientConnectionError) => .connError
  | .error e => .raise e

/-- _call_retry specialised to a pinned, deterministic client call. -/
def callRetryE {α : Type} (call : Except PyExc α) (num_retries : Nat) : Except PyExc α :=
  match callRetry (fun _ => outcomeOf call) num_retries with
  | .ok v _ => .ok v
  | .connFailed _ => .error .cinderConnectionFailed
  | .raised e _ => .error e

/-- The except-Exception wrapper _reraise_translated_volume_exception. -/
def mapVolErr {α : Type} (volume_id : String) (r : Except PyExc α) : Except PyExc α :=
  match r with
  | .ok v => .ok v
  | .error e => .error (translateVolumeException volume_id e)

/-- Faithful embedding of cindervolumeService.show. -/
def showVolume (client : CinderClient) (num_retries : Nat) (context : RequestContext)
    (volume_id : String) : Except PyExc PyDict := do
  let volume_meta ← mapVolErr volume_id (callRetryE (client.get_volume_meta volume_id) num_retries)
  let avail ← isVolumeAvailable context volume_meta
  if avail then translateFromCinder volume_meta
  else .error (.volumeNotFound volume_id)

/-- Faithful embedding of cindervolumeService.get: returns the translated
metadata together with the data chunks written to the caller's file object. -/
def getVolume (client : CinderClient) (num_retries : Nat) (volume_id : String) :
    Except PyExc (PyDict × List String) := do
  let r ← mapVolErr volume_id (callRetryE (client.get_volume volume_id) num_retries)
  let base ← translateFromCinder r.1
  .ok (base, r.2)

/-- Faithful embedding of cindervolumeService.update. -/
def updateVolume (client : CinderClient) (num_retries : Nat) (context : RequestContext)
    (volume_id : String) (volume_meta : PyDict) : Except PyExc PyDict := do
  let _ ← showVolume client num_retries context volume_id
  let m ← translateToCinder volume_meta
  let m2 ← mapVolErr volume_id (client.update_volume volume_id m)
  translateFromCinder m2

/-- The legacy ownership check inside delete (auth_strategy == deprecated). -/
def deleteOwnershipCheck (context : RequestContext) (volume_meta : PyDict) :
    Except PyExc Unit :=
  match dget? volume_meta ("properties") with
  | none => .error (.keyError ("properties"))
  | some (.dict properties) =>
    if truthyOptStr context.project_id && dmem properties ("project_id")
        && !(pyEqOptJson context.project_id (dgetJ properties ("project_id"))) then
      .error .notAuthorized
    else if truthyOptStr context.project_id && dmem properties ("owner_id")
        && !(pyEqOptJson context.project_id (dgetJ properties ("owner_id"))) then
      .error .notAuthorized
    else .ok ()
  | some _ => .error .typeError

/-- Faithful embedding of cindervolumeService.delete: an existence and
visibility check via show, the legacy ownership check, then the remote
delete, of whose failures only cinder NotFound is translated. -/
def deleteVolume (client : CinderClient) (num_retries : Nat) (context : RequestContext)
    (volume_id : String) (auth_strategy : String) : Except PyExc Unit := do
  let volume_meta ← showVolume client num_retries context volume_id
  let _ ← (if auth_strategy = ("deprecated") then deleteOwnershipCheck context volume_meta
           else .ok ())
  match client.delete_volume volume_id with
  | .error (.cinder .notFound) => .error (.volumeNotFound volume_id)
  | .error e => .error e
  | .ok r => .ok r

/-- Records served by the paginated listing. -/
abbrev VolRec := PyDict

/-- Termination status of the pagination generator. -/
inductive PagResult where
  | ok
  | pagFailed

deriving DecidableEq

/-- Faithful embedding of cindervolumeService._fetch_volumes: the yielded
records plus the termination status (pagFailed models the
volumePaginationFailed raise after the page was yielded); fuel bounds the
recursion depth, none meaning the bound was hit. -/
def fetchVolumes (fetch : Option MVal → Option Int → List VolRec) :
    Nat → Option MVal → Option Int → Option (List VolRec × PagResult)
  | 0, _, _ => none
  | fuel + 1, marker, limit =>
    match fetch marker limit with
    | [] => some ([], .ok)
    | v :: vs =>
      match dget? (vs.getLastD v) ("id") with
      | none => some (v :: vs, .pagFailed)
      | some mid =>
        match limit with
        | none =>
          match fetchVolumes fetch fuel (some mid) none with
          | none => none
          | some r => some (v :: vs ++ r.1, r.2)
        | some l =>
          if l - (v :: vs).length ≤ 0 then some (v :: vs, .ok)
          else
            match fetchVolumes fetch fuel (some mid) (some (l - (v :: vs).length)) with
            | none => none
            | some r => some (v :: vs ++ r.1, r.2)

/-- Parse one configured host:port pool entry, as pick_cinder_api_server
unpacks it (two-way split then int(), ValueError otherwise). -/
def parseHostPort (host_port : String) : Except PyExc (String × Nat) :=
  match splitChar ':' host_port.data with
  | [h, p] =>
    match toNatQ p with
    | some port => .ok (String.mk h, port)
    | none => .error .valueError
  | _ => .error .valueError

/-- Faithful embedding of pick_cinder_api_server; the random.choice draw is
modelled by an arbitrary index r into the configured pool (IndexError on an
empty pool, as random.choice raises). -/
def pickCinderApiServer (cinder_api_servers : List String) (r : Nat) :
    Except PyExc (String × Nat) :=
  match cinder_api_servers with
  | [] => .error .indexError
  | s :: rest =>
    parseHostPort ((s :: rest).get ⟨r % (s :: rest).length, Nat.mod_lt r (by simp)⟩)

/-- Strip a leading scheme prefix (models urlparse scheme handling for the
locator forms this module receives). -/
def stripScheme (cs : List Char) : List Char :=
  let pre := cs.takeWhile (fun c => decide (c ≠ ':') && decide (c ≠ '/'))
  match cs.drop pre.length with
  | ':' :: tl => tl
  | _ => cs

/-- netloc and path of an href (models urlparse splitting). -/
def netlocPath (cs0 : List Char) : List Char × List Char :=
  let cs := stripScheme cs0
  match cs with
  | '/' :: '/' :: rest =>
    (rest.takeWhile (fun c => decide (c ≠ '/')), rest.dropWhile (fun c => decide (c ≠ '/')))
  | _ => ([], cs)

/-- The port of a netloc (models urlparse's port property: ValueError on a
non-numeric or empty port). -/
def netlocPort (netloc : List Char) : Except PyExc (Option Nat) :=
  match splitChar ':' netloc with
  | [_] => .ok none
  | _ :: p :: _ =>
    match toNatQ p with
    | some n => .ok (some n)
    | none => .error .valueError
  | [] => .ok none

/-- Faithful embedding of _parse_volume_ref. -/
def parseVolumeRef (volume_href : String) : Except PyExc (String × String × Nat) := do
  let np := netlocPath volume_href.data
  let pr ← netlocPort np.1
  let port := match pr with
    | some p => if p = 0 then 80 else p
    | none => 80
  let host := String.mk ((splitChar ':' np.1).headD [])
  let volume_id := String.mk ((splitChar '/' np.2).getLastD [])
  .ok (volume_id, host, port)

/-- Faithful embedding of get_cinder_client: the endpoint the client is built
on, together with the volume id. -/
def getCinderClient (cinder_api_servers : List String) (r : Nat) (volume_href : String) :
    Except PyExc ((String × Nat) × String) := do
  let hp ← pickCinderApiServer cinder_api_servers r
  if !(volume_href.data.contains '/') then
    .ok (hp, volume_href)
  else
    match parseVolumeRef volume_href with
    | .ok q => .ok ((q.2.1, q.2.2), q.1)
    | .error _ => .error (.invalidVolumeRef volume_href)

deriving instance DecidableEq for Except

def mockRec (i : Nat) : VolRec := [(("id"), .jsn (.jstr (String.mk (natChars i))))]

def mockStore : List VolRec := (List.range 8).map (fun i => mockRec (i + 1))

def afterMarker : List VolRec → MVal → List VolRec
  | [], _ => []
  | r :: rs, mv => if dget? r ("id") = some mv then rs else afterMarker rs mv

def mockFetch (marker : Option MVal) (limit : Option Int) : List VolRec :=
  let avail := match marker with
    | none => mockStore
    | some mv => afterMarker mockStore mv
  let page := avail.take 3
  match limit with
  | none => page
  | some l => page.take l.toNat

/-- The visibility rule actually implemented: owner_id, when present, takes
precedence and project_id is then never consulted; then project_id; then
user_id; fail closed. -/
def amendedVisibility (context : RequestContext) (properties : List (String × Json)) : Bool :=
  match dget? properties ("owner_id") with
  | some v => decide (pyStrJ v = pyStrOpt context.project_id)
  | none =>
    match dget? properties ("project_id") with
    | some v => decide (pyStrJ v = pyStrOpt context.project_id)
    | none =>
      match dget? properties ("user_id") with
      | some u => decide (pyStrJ u = pyStrOpt context.user_id)
      | none => false

/-- The id of the last record of a page (none for an empty page or a last
record without an id). -/
def lastId : List VolRec → Option MVal
  | [] => none
  | v :: vs => dget? (vs.getLastD v) ("id")

/-- A backing page sequence served through the pagination protocol: the
first page for no marker, and the pages after the one whose last id matches
the marker otherwise. -/
def pagesAfter (pages : List (List VolRec)) (mv : MVal) : List (List VolRec) :=
  match pages with
  | [] => []
  | p :: ps => if lastId p = some mv then ps else pagesAfter ps mv

/-- A mock backend serving a fixed page sequence, keyed by the marker. -/
def pageServe (pages : List (List VolRec)) (marker : Option MVal) (_limit : Option Int) :
    List VolRec :=
  match marker with
  | none => pages.headD []
  | some mv => (pagesAfter pages mv).headD []

/-- The timestamp wire contract: a timestamp slot is either falsy or a
string in one of the two accepted formats. -/
def TimeOK (v : MVal) : Prop :=
  truthyM v = false ∨ ∃ s, v = .jsn (.jstr s) ∧ (parsePyDatetime s).isSome = true


/-! Theorems. -/


theorem natFromLE_digitsLE : ∀ (fuel n : Nat), n ≤ fuel → natFromLE (natDigitsLE fuel n) = n := by
  intro fuel
  induction fuel with
  | zero => intro n h; interval_cases n; simp [natDigitsLE, natFromLE]
  | succ f ih =>
    intro n h
    match n with
    | 0 => simp [natDigitsLE, natFromLE]
    | m + 1 =>
      have hd : (m + 1) / 10 ≤ f := by omega
      simp only [natDigitsLE, natFromLE, ih _ hd]
      omega

theorem natDigitsLE_lt : ∀ (fuel n d : Nat), d ∈ natDigitsLE fuel n → d < 10 := by
  intro fuel
  induction fuel with
  | zero => intro n d h; simp [natDigitsLE] at h
  | succ f ih =>
    intro n d h
    match n with
    | 0 => simp [natDigitsLE] at h
    | m + 1 =>
      simp only [natDigitsLE, List.mem_cons] at h
      rcases h with h | h
      · omega
      · exact ih _ _ h

theorem dChar_val : ∀ d, d < 10 → dVal (dChar d) = d := by decide

theorem dChar_digit : ∀ d, d < 10 → isDigitCh (dChar d) = true := by decide

theorem natDigitsLE_ne_nil (n : Nat) (h : n ≠ 0) : natDigitsLE n n ≠ [] := by
  match n with
  | 0 => omega
  | m + 1 => simp [natDigitsLE]

theorem natChars_ne_nil (n : Nat) : natChars n ≠ [] := by
  by_cases h : n = 0
  · simp [natChars, h]
  · simp only [natChars, if_neg h]
    intro hc
    rcases List.map_eq_nil_iff.mp hc with hrev
    exact natDigitsLE_ne_nil n h (by simpa using hrev)

theorem natChars_digits (n : Nat) : ∀ c ∈ natChars n, isDigitCh c = true := by
  intro c hc
  by_cases h : n = 0
  · simp [natChars, h] at hc
    subst hc; decide
  · simp only [natChars, if_neg h, List.mem_map, List.mem_reverse] at hc
    obtain ⟨d, hd, rfl⟩ := hc
    exact dChar_digit d (natDigitsLE_lt n n d hd)

theorem digitsVal_append_one (xs : List Char) (c : Char) :
    digitsVal (xs ++ [c]) = 10 * digitsVal xs + dVal c := by
  simp [digitsVal, List.foldl_append]

theorem digitsVal_rev_map : ∀ le : List Nat, (∀ d ∈ le, d < 10) →
    digitsVal ((le.reverse).map dChar) = natFromLE le := by
  intro le
  induction le with
  | nil => intro _; simp [digitsVal, natFromLE]
  | cons d ds ih =>
    intro h
    have hd : d < 10 := h d (by simp)
    simp only [List.reverse_cons, List.map_append, List.map_cons, List.map_nil]
    rw [digitsVal_append_one, ih (fun x hx => h x (by simp [hx])), dChar_val d hd, natFromLE]
    omega

theorem digitsVal_natChars (n : Nat) : digitsVal (natChars n) = n := by
  by_cases h : n = 0
  · subst h; decide
  · simp only [natChars, if_neg h]
    rw [digitsVal_rev_map _ (fun d hd => natDigitsLE_lt n n d hd)]
    exact natFromLE_digitsLE n n (le_refl n)

theorem takeDigits_append : ∀ (ds rest : List Char), (∀ c ∈ ds, isDigitCh c = true) →
    noDigitHead rest → takeDigits (ds ++ rest) = (ds, rest) := by
  intro ds
  induction ds with
  | nil =>
    intro rest _ hr
    match rest with
    | [] => rfl
    | c :: cs => simp only [noDigitHead] at hr; simp [takeDigits, hr]
  | cons c cs ih =>
    intro rest h hr
    have hc : isDigitCh c = true := h c (by simp)
    have hrec := ih rest (fun x hx => h x (by simp [hx])) hr
    simp only [List.cons_append, List.append_eq, takeDigits, hc, if_pos, hrec]

theorem parseStrBody_quote (rest : List Char) : parseStrBody ('"' :: rest) = some ([], rest) := by
  unfold parseStrBody; rfl

theorem parseStrBody_backslash (e : Char) (cs : List Char) :
    parseStrBody ('\\' :: e :: cs) =
      match parseStrBody cs with
      | none => none
      | some p => some (e :: p.1, p.2) := by
  conv_lhs => unfold parseStrBody
  rfl

theorem parseStrBody_plain (c : Char) (cs : List Char) (h1 : c ≠ '"') (h2 : c ≠ '\\') :
    parseStrBody (c :: cs) =
      match parseStrBody cs with
      | none => none
      | some p => some (c :: p.1, p.2) := by
  conv_lhs => unfold parseStrBody
  rw [if_neg h1, if_neg h2]

theorem parseStrBody_esc : ∀ (s rest : List Char),
    parseStrBody (escChars s ++ '"' :: rest) = some (s, rest) := by
  intro s
  induction s with
  | nil => intro rest; simp [escChars, parseStrBody_quote]
  | cons c cs ih =>
    intro rest
    by_cases h : c = '"' ∨ c = '\\'
    · simp only [escChars, if_pos h, List.cons_append]
      rw [parseStrBody_backslash, ih rest]
    · push_neg at h
      simp only [escChars, if_neg (by tauto : ¬(c = '"' ∨ c = '\\')), List.cons_append]
      rw [parseStrBody_plain c _ h.1 h.2, ih rest]

theorem digit_excl : ∀ c : Char, isDigitCh c = true →
    c ≠ 'n' ∧ c ≠ 't' ∧ c ≠ 'f' ∧ c ≠ '"' ∧ c ≠ '[' ∧ c ≠ '{' ∧ c ≠ '-' ∧ c ≠ ']' ∧
    c ≠ '\x7d' ∧ c ≠ ',' ∧ c ≠ ':' := by
  intro c h
  refine ⟨?_, ?_, ?_, ?_, ?_, ?_, ?_, ?_, ?_, ?_, ?_⟩ <;>
    (rintro rfl; revert h; decide)

theorem dump_head : ∀ v : Json, ∃ c t, dumpJson v = c :: t ∧ c ≠ ']' := by
  intro v
  cases v with
  | null => exact ⟨'n', _, rfl, by decide⟩
  | jbool b => cases b
               · exact ⟨'f', _, rfl, by decide⟩
               · exact ⟨'t', _, rfl, by decide⟩
  | jnum n =>
    by_cases h : n < 0
    · exact ⟨'-', natChars n.natAbs, by simp [dumpJson, intChars, if_pos h], by decide⟩
    · obtain ⟨c, t, hct⟩ := List.exists_cons_of_ne_nil (natChars_ne_nil n.toNat)
      have hmem : c ∈ natChars n.toNat := by rw [hct]; exact List.mem_cons_self c t
      have hd := natChars_digits n.toNat c hmem
      refine ⟨c, t, ?_, (digit_excl c hd).2.2.2.2.2.2.2.1⟩
      simp [dumpJson, intChars, if_neg h, hct]
  | jstr s => exact ⟨'"', _, rfl, by decide⟩
  | arr xs => exact ⟨'[', _, rfl, by decide⟩
  | obj kvs => exact ⟨'{', _, rfl, by decide⟩

theorem noDigitHead_aSep (tl : JArr) (rest : List Char) : noDigitHead (dumpASep tl ++ rest) := by
  cases tl with
  | nil => exact (by decide : isDigitCh ']' = false)
  | cons hd tl => exact (by decide : isDigitCh ',' = false)

theorem noDigitHead_oSep (tl : JObj) (rest : List Char) : noDigitHead (dumpOSep tl ++ rest) := by
  cases tl with
  | nil => exact (by decide : isDigitCh '\x7d' = false)
  | cons k v tl => exact (by decide : isDigitCh ',' = false)

theorem parseJson_null (f : Nat) (rest : List Char) :
    parseJson (f + 1) ('n' :: 'u' :: 'l' :: 'l' :: rest) = some (.null, rest) := by
  conv_lhs => unfold parseJson
  rfl

theorem parseJson_true (f : Nat) (rest : List Char) :
    parseJson (f + 1) ('t' :: 'r' :: 'u' :: 'e' :: rest) = some (.jbool true, rest) := by
  conv_lhs => unfold parseJson
  rfl

theorem parseJson_false (f : Nat) (rest : List Char) :
    parseJson (f + 1) ('f' :: 'a' :: 'l' :: 's' :: 'e' :: rest) = some (.jbool false, rest) := by
  conv_lhs => unfold parseJson
  rfl

theorem parseJson_quote (f : Nat) (cs1 : List Char) :
    parseJson (f + 1) ('"' :: cs1) =
      match parseStrBody cs1 with
      | none => none
      | some p => some (.jstr (String.mk p.1), p.2) := by
  conv_lhs => unfold parseJson
  rfl

theorem parseJson_lbrack (f : Nat) (cs1 : List Char) :
    parseJson (f + 1) ('[' :: cs1) =
      match parseArrItems f cs1 with
      | none => none
      | some p => some (.arr p.1, p.2) := by
  conv_lhs => unfold parseJson
  rfl

theorem parseJson_lbrace (f : Nat) (cs1 : List Char) :
    parseJson (f + 1) ('{' :: cs1) =
      match parseObjItems f cs1 with
      | none => none
      | some p => some (.obj p.1, p.2) := by
  conv_lhs => unfold parseJson
  rfl

theorem parseJson_minus (f : Nat) (cs1 : List Char) :
    parseJson (f + 1) ('-' :: cs1) =
      match (takeDigits cs1).1 with
      | [] => none
      | _ :: _ => some (.jnum (-(digitsVal (takeDigits cs1).1 : Int)), (takeDigits cs1).2) := by
  conv_lhs => unfold parseJson
  rfl

theorem parseJson_digit (f : Nat) (c : Char) (cs1 : List Char) (h : isDigitCh c = true) :
    parseJson (f + 1) (c :: cs1) =
      some (.jnum (digitsVal (takeDigits (c :: cs1)).1 : Int), (takeDigits (c :: cs1)).2) := by
  obtain ⟨h1, h2, h3, h4, h5, h6, h7, _, _, _, _⟩ := digit_excl c h
  conv_lhs => unfold parseJson
  rw [if_neg h1, if_neg h2, if_neg h3, if_neg h4, if_neg h5, if_neg h6, if_neg h7, if_pos h]

theorem parseArrItems_rbrack (f : Nat) (cs1 : List Char) :
    parseArrItems (f + 1) (']' :: cs1) = some (.nil, cs1) := by
  conv_lhs => unfold parseArrItems
  rfl

theorem parseArrItems_go (f : Nat) (c : Char) (cs1 : List Char) (h : c ≠ ']') :
    parseArrItems (f + 1) (c :: cs1) =
      match parseJson f (c :: cs1) with
      | none => none
      | some p =>
        match p.2 with
        | [] => none
        | c2 :: cs2 =>
          if c2 = ',' then
            match parseArrItems f cs2 with
            | none => none
            | some q => some (.cons p.1 q.1, q.2)
          else if c2 = ']' then some (.cons p.1 .nil, cs2)
          else none := by
  conv_lhs => unfold parseArrItems
  rw [if_neg h]

theorem parseObjItems_rbrace (f : Nat) (cs1 : List Char) :
    parseObjItems (f + 1) ('\x7d' :: cs1) = some (.nil, cs1) := by
  conv_lhs => unfold parseObjItems
  rfl

theorem parseObjItems_key (f : Nat) (cs1 : List Char) :
    parseObjItems (f + 1) ('"' :: cs1) =
      match parseStrBody cs1 with
      | none => none
      | some kp =>
        match kp.2 with
        | [] => none
        | c2 :: cs2 =>
          if c2 = ':' then
            match parseJson f cs2 with
            | none => none
            | some vp =>
              match vp.2 with
              | [] => none
              | c3 :: cs3 =>
                if c3 = ',' then
                  match parseObjItems f cs3 with
                  | none => none
                  | some tp => some (.cons (String.mk kp.1) vp.1 tp.1, tp.2)
                else if c3 = '\x7d' then some (.cons (String.mk kp.1) vp.1 .nil, cs3)
                else none
          else none := by
  conv_lhs => unfold parseObjItems
  rfl

mutual
/-- Parsing inverts serialization for every value, given enough fuel. -/
theorem parseJson_dump : ∀ (v : Json) (f : Nat) (rest : List Char),
    jfuel v ≤ f → noDigitHead rest → parseJson f (dumpJson v ++ rest) = some (v, rest)
  | .null, f, rest, hf, _ => by
    cases f with
    | zero => simp [jfuel] at hf
    | succ f =>
      simp only [dumpJson, List.cons_append, List.nil_append]
      exact parseJson_null f rest
  | .jbool true, f, rest, hf, _ => by
    cases f with
    | zero => simp [jfuel] at hf
    | succ f =>
      simp only [dumpJson, List.cons_append, List.nil_append]
      exact parseJson_true f rest
  | .jbool false, f, rest, hf, _ => by
    cases f with
    | zero => simp [jfuel] at hf
    | succ f =>
      simp only [dumpJson, List.cons_append, List.nil_append]
      exact parseJson_false f rest
  | .jnum n, f, rest, hf, hr => by
    cases f with
    | zero => simp [jfuel] at hf
    | succ f =>
      rcases lt_or_ge n 0 with hneg | hpos
      · have hdump : dumpJson (.jnum n) = '-' :: natChars n.natAbs := by
          simp [dumpJson, intChars, if_pos hneg]
        rw [hdump, List.cons_append, parseJson_minus,
          takeDigits_append _ _ (natChars_digits _) hr]
        obtain ⟨c, t, hct⟩ := List.exists_cons_of_ne_nil (natChars_ne_nil n.natAbs)
        have hval : digitsVal (c :: t) = n.natAbs := by
          rw [← hct]; exact digitsVal_natChars n.natAbs
        rw [hct]
        show some (Json.jnum (-(digitsVal (c :: t) : Int)), rest) = some (.jnum n, rest)
        rw [hval]
        have hn : -((n.natAbs : Nat) : Int) = n := by omega
        rw [hn]
      · have hdump : dumpJson (.jnum n) = natChars n.toNat := by
          simp [dumpJson, intChars, if_neg (by omega : ¬ n < 0)]
        obtain ⟨c, t, hct⟩ := List.exists_cons_of_ne_nil (natChars_ne_nil n.toNat)
        have hdig : ∀ x ∈ c :: t, isDigitCh x = true := by
          rw [← hct]; exact natChars_digits n.toNat
        have hc : isDigitCh c = true := hdig c (by simp)
        rw [hdump, hct, List.cons_append, parseJson_digit f c _ hc]
        have htd : takeDigits ((c :: t) ++ rest) = (c :: t, rest) :=
          takeDigits_append _ _ hdig hr
        rw [List.cons_append] at htd
        rw [htd]
        have hval : digitsVal (c :: t) = n.toNat := by
          rw [← hct]; exact digitsVal_natChars n.toNat
        show some (Json.jnum (digitsVal (c :: t) : Int), rest) = some (.jnum n, rest)
        rw [hval]
        have hn : ((n.toNat : Nat) : Int) = n := by omega
        rw [hn]
  | .jstr s, f, rest, hf, _ => by
    cases f with
    | zero => simp [jfuel] at hf
    | succ f =>
      simp only [dumpJson, List.cons_append, List.append_assoc, List.singleton_append]
      rw [parseJson_quote, parseStrBody_esc]
      rfl
  | .arr xs, f, rest, hf, hr => by
    cases f with
    | zero => simp [jfuel] at hf
    | succ f =>
      have hf' : afuel xs ≤ f := by simp only [jfuel] at hf; omega
      simp only [dumpJson, List.cons_append]
      rw [parseJson_lbrack, parseArr_dump xs f rest hf' hr]
  | .obj kvs, f, rest, hf, hr => by
    cases f with
    | zero => simp [jfuel] at hf
    | succ f =>
      have hf' : ofuel kvs ≤ f := by simp only [jfuel] at hf; omega
      simp only [dumpJson, List.cons_append]
      rw [parseJson_lbrace, parseObj_dump kvs f rest hf' hr]

/-- Array-items parsing inverts array-body serialization. -/
theorem parseArr_dump : ∀ (xs : JArr) (f : Nat) (rest : List Char),
    afuel xs ≤ f → noDigitHead rest → parseArrItems f (dumpABody xs ++ rest) = some (xs, rest)
  | .nil, f, rest, hf, _ => by
    cases f with
    | zero => simp [afuel] at hf
    | succ f =>
      simp only [dumpABody, List.cons_append, List.nil_append]
      exact parseArrItems_rbrack f rest
  | .cons hd tl, f, rest, hf, hr => by
    cases f with
    | zero => simp [afuel] at hf
    | succ f =>
      have hfs : jfuel hd ≤ f ∧ afuel tl ≤ f := by
        simp only [afuel] at hf
        constructor <;> omega
      obtain ⟨c, t, hct, hcne⟩ := dump_head hd
      have hjson := parseJson_dump hd f (dumpASep tl ++ rest) hfs.1 (noDigitHead_aSep tl rest)
      rw [hct, List.cons_append] at hjson
      simp only [dumpABody, List.append_assoc]
      rw [hct, List.cons_append, parseArrItems_go f c _ hcne]
      cases tl with
      | nil =>
        simp only [dumpASep, List.singleton_append] at hjson
        simp only [dumpASep, List.singleton_append, hjson]
        rfl
      | cons h2 t2 =>
        have hrec := parseArr_dump (.cons h2 t2) f rest hfs.2 hr
        simp only [dumpABody, List.append_assoc] at hrec
        simp only [dumpASep, List.cons_append, List.append_assoc] at hjson ⊢
        simp only [hjson, hrec, reduceIte]

/-- Object-members parsing inverts object-body serialization. -/
theorem parseObj_dump : ∀ (kvs : JObj) (f : Nat) (rest : List Char),
    ofuel kvs ≤ f → noDigitHead rest → parseObjItems f (dumpOBody kvs ++ rest) = some (kvs, rest)
  | .nil, f, rest, hf, _ => by
    cases f with
    | zero => simp [ofuel] at hf
    | succ f =>
      simp only [dumpOBody, List.cons_append, List.nil_append]
      exact parseObjItems_rbrace f rest
  | .cons k v tl, f, rest, hf, hr => by
    cases f with
    | zero => simp [ofuel] at hf
    | succ f =>
      have hfs : jfuel v ≤ f ∧ ofuel tl ≤ f := by
        simp only [ofuel] at hf
        constructor <;> omega
      have hjson := parseJson_dump v f (dumpOSep tl ++ rest) hfs.1 (noDigitHead_oSep tl rest)
      simp only [dumpOBody, List.cons_append, List.append_assoc]
      rw [parseObjItems_key, parseStrBody_esc]
      cases tl with
      | nil =>
        simp only [dumpOSep, List.singleton_append] at hjson
        simp only [dumpOSep, List.singleton_append, hjson]
        rfl
      | cons k2 v2 t2 =>
        have hrec := parseObj_dump (.cons k2 v2 t2) f rest hfs.2 hr
        simp only [dumpOBody, List.cons_append, List.append_assoc] at hrec
        simp only [dumpOSep, List.cons_append, List.append_assoc] at hjson ⊢
        simp only [hjson, hrec, reduceIte]
end

mutual
/-- The parser fuel needed for a value is at most its serialized length. -/
theorem jfuel_le_dump : ∀ v : Json, jfuel v ≤ (dumpJson v).length
  | .null => by simp [jfuel, dumpJson]
  | .jbool b => by cases b <;> simp [jfuel, dumpJson]
  | .jnum n => by
    obtain ⟨c, t, hct, _⟩ := dump_head (.jnum n)
    rw [hct]
    simp [jfuel]
  | .jstr s => by simp [jfuel, dumpJson]
  | .arr xs => by
    have hb := afuel_le_body xs
    simp only [jfuel, dumpJson, List.length_cons]
    omega
  | .obj kvs => by
    have hb := ofuel_le_body kvs
    simp only [jfuel, dumpJson, List.length_cons]
    omega

/-- Fuel bound for a serialized array body. -/
theorem afuel_le_body : ∀ xs : JArr, afuel xs ≤ (dumpABody xs).length
  | .nil => by simp [afuel, dumpABody]
  | .cons hd tl => by
    have h1 := jfuel_le_dump hd
    have h2 := afuel_le_sep tl
    have h3 : 1 ≤ (dumpJson hd).length := by
      obtain ⟨c, t, hct, _⟩ := dump_head hd
      rw [hct]; simp
    have h4 : 1 ≤ (dumpASep tl).length := by cases tl <;> simp [dumpASep]
    simp only [afuel, dumpABody, List.length_append]
    omega

/-- Fuel bound for a serialized array continuation. -/
theorem afuel_le_sep : ∀ xs : JArr, afuel xs ≤ (dumpASep xs).length
  | .nil => by simp [afuel, dumpASep]
  | .cons hd tl => by
    have h1 := jfuel_le_dump hd
    have h2 := afuel_le_sep tl
    simp only [afuel, dumpASep, List.length_cons, List.length_append]
    omega

/-- Fuel bound for a serialized object body. -/
theorem ofuel_le_body : ∀ kvs : JObj, ofuel kvs ≤ (dumpOBody kvs).length
  | .nil => by simp [ofuel, dumpOBody]
  | .cons k v tl => by
    have h1 := jfuel_le_dump v
    have h2 := ofuel_le_sep tl
    simp only [ofuel, dumpOBody, List.length_cons, List.length_append]
    omega

/-- Fuel bound for a serialized object continuation. -/
theorem ofuel_le_sep : ∀ kvs : JObj, ofuel kvs ≤ (dumpOSep kvs).length
  | .nil => by simp [ofuel, dumpOSep]
  | .cons k v tl => by
    have h1 := jfuel_le_dump v
    have h2 := ofuel_le_sep tl
    simp only [ofuel, dumpOSep, List.length_cons, List.length_append]
    omega
end

/-- json.loads inverts json.dumps on every serializable value. -/
theorem jloads_jdumps (v : Json) : jloads (jdumps v) = some v := by
  have h := parseJson_dump v ((dumpJson v).length + 1) []
    (le_trans (jfuel_le_dump v) (by omega)) trivial
  rw [List.append_nil] at h
  simp [jloads, jdumps, h]

/-- C1 (counterexample): a non-admin, tokenless context whose tenant id
equals the record's properties.project_id but differs from its
properties.owner_id does not see the record, contradicting the claimed
disjunction. -/
theorem c1_counterexample :
    truthyOptStr (RequestContext.mk none false (some ("t")) none).auth_token = false ∧
    (RequestContext.mk none false (some ("t")) none).is_admin = false ∧
    dget? [(("owner_id"), Json.jstr ("x")), (("project_id"), Json.jstr ("t"))] ("project_id")
      = some (.jstr ("t")) ∧
    pyStrJ (.jstr ("t")) = pyStrOpt (RequestContext.mk none false (some ("t")) none).project_id ∧
    isVolumeAvailable (RequestContext.mk none false (some ("t")) none)
      [(("properties"), .dict [(("owner_id"), Json.jstr ("x")), (("project_id"), Json.jstr ("t"))])]
      = .ok false := by
  decide

/-- C1 (amended): for a tokenless, non-admin context with a truthy tenant id
and a record whose properties slot holds a dict, the visibility check returns
the first-match cascade owner_id, then project_id, then user_id. -/
theorem c1_visibility (context : RequestContext) (properties : List (String × Json))
    (volume_meta : PyDict)
    (htok : truthyOptStr context.auth_token = false)
    (hadm : context.is_admin = false)
    (hproj : truthyOptStr context.project_id = true)
    (hprops : dget? volume_meta ("properties") = some (.dict properties)) :
    isVolumeAvailable context volume_meta = .ok (amendedVisibility context properties) := by
  unfold isVolumeAvailable
  rw [htok, hadm, hprops]
  simp only [Bool.false_eq_true, if_false]
  unfold amendedVisibility
  cases howner : dget? properties ("owner_id") with
  | some v =>
    have hm : dmem properties ("owner_id") = true := by simp [dmem, howner]
    simp [hproj, hm, dgetJ, howner]
  | none =>
    have hm : dmem properties ("owner_id") = false := by simp [dmem, howner]
    simp only [hproj, hm, Bool.and_false, Bool.false_eq_true, if_false]
    cases hproject : dget? properties ("project_id") with
    | some v =>
      have hm2 : dmem properties ("project_id") = true := by simp [dmem, hproject]
      simp [hproj, hm2, dgetJ, hproject]
    | none =>
      have hm2 : dmem properties ("project_id") = false := by simp [dmem, hproject]
      simp only [hproj, hm2, Bool.and_false, Bool.false_eq_true, if_false]
      cases huser : dget? properties ("user_id") <;> simp [huser]

/-- C1 (witness): the amended rule evaluated at a concrete context/record. -/
theorem c1_visibility_witness :
    isVolumeAvailable (RequestContext.mk none false (some ("t")) none)
      [(("properties"), .dict [(("owner_id"), Json.jstr ("t"))])]
      = .ok (amendedVisibility (RequestContext.mk none false (some ("t")) none)
          [(("owner_id"), Json.jstr ("t"))]) :=
  c1_visibility _ _ _ (by decide) (by decide) (by decide) (by decide)

theorem callRetryAux_allConn {α : Type} (attempt : Nat → CallOutcome α) :
    ∀ (n i : Nat), (∀ j, j < n → attempt (i + j) = .connError) →
    callRetryAux attempt n i = .connFailed (i + n) := by
  intro n
  induction n with
  | zero => intro i _; simp [callRetryAux]
  | succ m ih =>
    intro i h
    have h0 : attempt i = .connError := by
      have := h 0 (by omega)
      simpa using this
    simp only [callRetryAux, h0]
    have := ih (i + 1) (fun j hj => by
      have := h (j + 1) (by omega)
      simpa [Nat.add_assoc, Nat.add_comm 1 j] using this)
    rw [this]
    congr 1
    omega

theorem callRetryAux_okAfter {α : Type} (attempt : Nat → CallOutcome α) :
    ∀ (n i k : Nat) (v : α), k < n → (∀ j, j < k → attempt (i + j) = .connError) →
    attempt (i + k) = .ok v →
    callRetryAux attempt n i = .ok v (i + k + 1) := by
  intro n
  induction n with
  | zero => intro i k v hk _ _; omega
  | succ m ih =>
    intro i k v hk hconn hok
    match k with
    | 0 =>
      have h0 : attempt i = .ok v := by simpa using hok
      simp [callRetryAux, h0]
    | k + 1 =>
      have h0 : attempt i = .connError := by
        have := hconn 0 (by omega)
        simpa using this
      simp only [callRetryAux, h0]
      have := ih (i + 1) k v (by omega)
        (fun j hj => by
          have := hconn (j + 1) (by omega)
          simpa [Nat.add_assoc, Nat.add_comm 1 j] using this)
        (by
          have : i + 1 + k = i + (k + 1) := by omega
          rw [this]
          exact hok)
      rw [this]
      congr 1
      omega

theorem callRetryAux_raiseAfter {α : Type} (attempt : Nat → CallOutcome α) :
    ∀ (n i k : Nat) (e : PyExc), k < n → (∀ j, j < k → attempt (i + j) = .connError) →
    attempt (i + k) = .raise e →
    callRetryAux attempt n i = .raised e (i + k + 1) := by
  intro n
  induction n with
  | zero => intro i k e hk _ _; omega
  | succ m ih =>
    intro i k e hk hconn hraise
    match k with
    | 0 =>
      have h0 : attempt i = .raise e := by simpa using hraise
      simp [callRetryAux, h0]
    | k + 1 =>
      have h0 : attempt i = .connError := by
        have := hconn 0 (by omega)
        simpa using this
      simp only [callRetryAux, h0]
      have := ih (i + 1) k e (by omega)
        (fun j hj => by
          have := hconn (j + 1) (by omega)
          simpa [Nat.add_assoc, Nat.add_comm 1 j] using this)
        (by
          have : i + 1 + k = i + (k + 1) := by omega
          rw [this]
          exact hraise)
      rw [this]
      congr 1
      omega

/-- C3: the retry loop of _call_retry.  k connectivity failures followed by a
success (k below the retry budget) succeed on attempt k+1; an always-failing
connection exhausts max_retries+1 attempts and raises the terminal
cinderConnectionFailed; any non-connectivity failure on attempt j+1
propagates immediately with no further attempt. -/
theorem c3_retry :
    (∀ (α : Type) (attempt : Nat → CallOutcome α) (max_retries k : Nat) (v : α),
      k < max_retries → (∀ i, i < k → attempt i = .connError) → attempt k = .ok v →
      callRetry attempt max_retries = .ok v (k + 1)) ∧
    (∀ (α : Type) (attempt : Nat → CallOutcome α) (max_retries : Nat),
      (∀ i, attempt i = .connError) →
      callRetry attempt max_retries = .connFailed (max_retries + 1)) ∧
    (∀ (α : Type) (attempt : Nat → CallOutcome α) (max_retries j : Nat) (e : PyExc),
      j ≤ max_retries → (∀ i, i < j → attempt i = .connError) → attempt j = .raise e →
      callRetry attempt max_retries = .raised e (j + 1)) := by
  refine ⟨?_, ?_, ?_⟩
  · intro α attempt m k v hk hconn hok
    have := callRetryAux_okAfter attempt (m + 1) 0 k v (by omega)
      (fun j hj => by simpa using hconn j hj) (by simpa using hok)
    simpa [callRetry] using this
  · intro α attempt m h
    have := callRetryAux_allConn attempt (m + 1) 0 (fun j _ => h (0 + j))
    simpa [callRetry] using this
  · intro α attempt m j e hj hconn hraise
    have := callRetryAux_raiseAfter attempt (m + 1) 0 j e (by omega)
      (fun i hi => by simpa using hconn i hi) (by simpa using hraise)
    simpa [callRetry] using this

/-- C3 (witness): concrete retry traces exercising all three clauses. -/
theorem c3_retry_witness :
    callRetry (fun i => if i < 2 then .connError else .ok 42) 5 = .ok 42 3 ∧
    callRetry (fun _ => (.connError : CallOutcome Nat)) 2 = .connFailed 3 ∧
    callRetry (fun i => if i < 1 then (.connError : CallOutcome Nat) else .raise .typeError) 5
      = .raised (.typeError : PyExc) 2 := by
  refine ⟨?_, ?_, ?_⟩
  · exact c3_retry.1 Nat _ 5 2 42 (by omega) (fun i hi => by simp [hi]) (by simp)
  · exact c3_retry.2.1 Nat _ 2 (fun i => rfl)
  · exact c3_retry.2.2 Nat _ 5 1 .typeError (by omega) (fun i hi => by simp [hi]) (by simp)

/-- C6: _limit_attributes at a record that carries the attribute attached —
the projection emits the misspelled key atached (always None for such
records), drops attached, turns the other missing attributes into explicit
None values, and drops extra attributes. -/
theorem c6_limit_attributes :
    limitAttributes
      [(("id"), .jsn (.jstr ("v1"))), (("attached"), .jsn (.jbool true)),
       (("extra"), .jsn (.jstr ("dropme")))]
      = [(("id"), .jsn (.jstr ("v1"))), (("size"), .jsn .null), (("display_name"), .jsn .null),
         (("created_at"), .jsn .null), (("updated_at"), .jsn .null), (("deleted_at"), .jsn .null),
         (("deleted"), .jsn .null), (("status"), .jsn .null), (("atached"), .jsn .null),
         (("properties"), .dict [])] ∧
    dmem (limitAttributes [(("id"), .jsn (.jstr ("v1"))), (("attached"), .jsn (.jbool true)),
      (("extra"), .jsn (.jstr ("dropme")))]) ("attached") = false ∧
    dmem (limitAttributes [(("id"), .jsn (.jstr ("v1"))), (("attached"), .jsn (.jbool true)),
      (("extra"), .jsn (.jstr ("dropme")))]) ("atached") = true ∧
    dmem (limitAttributes [(("id"), .jsn (.jstr ("v1"))), (("attached"), .jsn (.jbool true)),
      (("extra"), .jsn (.jstr ("dropme")))]) ("extra") = false := by
  decide

/-- C7: the endpoint selector returns the parse of a member of the pool for
every nonempty pool and every random draw; an empty pool raises IndexError
(the configuration-class failure), which the retry loop does not retry: a
call failing that way is raised after exactly one attempt. -/
theorem c7_endpoint_selector :
    (∀ (cinder_api_servers : List String) (r : Nat), cinder_api_servers ≠ [] →
      ∃ s ∈ cinder_api_servers, pickCinderApiServer cinder_api_servers r = parseHostPort s) ∧
    (∀ r : Nat, pickCinderApiServer [] r = .error .indexError) ∧
    (∀ (α : Type) (n : Nat),
      callRetry (fun _ => (.raise .indexError : CallOutcome α)) n = .raised .indexError 1) := by
  refine ⟨?_, fun _ => rfl, ?_⟩
  · intro servers r hne
    match servers with
    | s :: rest =>
      refine ⟨(s :: rest).get ⟨r % (s :: rest).length, Nat.mod_lt r (by simp)⟩, ?_, rfl⟩
      exact List.get_mem _ _ _
  · intro α n
    simp [callRetry, callRetryAux]

/-- C7 (witness): the selector on a concrete two-entry pool. -/
theorem c7_endpoint_selector_witness :
    ∃ s ∈ [("a:1"), ("b:2")], pickCinderApiServer [("a:1"), ("b:2")] 3 = parseHostPort s :=
  c7_endpoint_selector.1 [("a:1"), ("b:2")] 3 (by decide)

/-- C8: locator parsing — the fully specified locator yields (id, host,
port); an absent port defaults to 80; a reference without any slash is
passed through as a bare id against the selected default endpoint; and a
locator with a malformed port surfaces as InvalidvolumeRef. -/
theorem c8_volume_ref :
    parseVolumeRef ("http://host:1234/volumes/abc") = .ok ("abc", "host", 1234) ∧
    parseVolumeRef ("http://host/volumes/abc") = .ok ("abc", "host", 80) ∧
    (∀ (cinder_api_servers : List String) (r : Nat) (volume_href : String) (hp : String × Nat),
      ('/' : Char) ∉ volume_href.data →
      pickCinderApiServer cinder_api_servers r = .ok hp →
      getCinderClient cinder_api_servers r volume_href = .ok (hp, volume_href)) ∧
    (∀ (cinder_api_servers : List String) (r : Nat) (hp : String × Nat),
      pickCinderApiServer cinder_api_servers r = .ok hp →
      getCinderClient cinder_api_servers r ("http://host:bad/volumes/abc")
        = .error (.invalidVolumeRef ("http://host:bad/volumes/abc"))) := by
  refine ⟨by decide, by decide, ?_, ?_⟩
  · intro servers r href hp hslash hpick
    simp [getCinderClient, hpick, hslash, Bind.bind, Except.bind]
  · intro servers r hp hpick
    have hparse : parseVolumeRef ("http://host:bad/volumes/abc") = .error .valueError := by
      decide
    have hcont : ('/' : Char) ∈ ("http://host:bad/volumes/abc").data := by decide
    simp [getCinderClient, hpick, hcont, hparse, Bind.bind, Except.bind]

/-- C8 (witness): both client-construction clauses at concrete inputs. -/
theorem c8_volume_ref_witness :
    getCinderClient [("h:9292")] 0 ("abc-id") = .ok ((("h"), 9292), ("abc-id")) ∧
    getCinderClient [("h:9292")] 0 ("http://host:bad/volumes/abc")
      = .error (.invalidVolumeRef ("http://host:bad/volumes/abc")) :=
  ⟨c8_volume_ref.2.2.1 [("h:9292")] 0 ("abc-id") (("h"), 9292) (by decide) (by decide),
   c8_volume_ref.2.2.2 [("h:9292")] 0 (("h"), 9292) (by decide)⟩

theorem callRetryE_ok {α : Type} (v : α) (n : Nat) : callRetryE (Except.ok v) n = .ok v := by
  simp [callRetryE, callRetry, callRetryAux, outcomeOf]

/-- C10: when the remote metadata fetch succeeds but the visibility check
rejects the record, show raises the record-scoped volumeNotFound — not
volumeNotAuthorized — so callers cannot tell invisible from missing. -/
theorem c10_show_invisible (client : CinderClient) (num_retries : Nat)
    (context : RequestContext) (volume_id : String) (volume_meta : PyDict)
    (hmeta : client.get_volume_meta volume_id = .ok volume_meta)
    (hvis : isVolumeAvailable context volume_meta = .ok false) :
    showVolume client num_retries context volume_id = .error (.volumeNotFound volume_id) ∧
    showVolume client num_retries context volume_id
      ≠ .error (.volumeNotAuthorized volume_id) := by
  have hshow : showVolume client num_retries context volume_id
      = .error (.volumeNotFound volume_id) := by
    unfold showVolume
    rw [hmeta, callRetryE_ok]
    simp [mapVolErr, hvis, Bind.bind, Except.bind]
  exact ⟨hshow, by rw [hshow]; simp⟩

/-- C10 (witness): a concrete invisible record. -/
theorem c10_show_invisible_witness :
    showVolume
      ⟨fun _ => .ok [(("properties"), .dict [(("owner_id"), .jstr ("x"))])],
       fun v => .error (.keyError v), fun v _ => .error (.keyError v),
       fun v => .error (.keyError v)⟩
      0 (RequestContext.mk none false (some ("t")) none) ("v1")
      = .error (.volumeNotFound ("v1")) :=
  (c10_show_invisible
    ⟨fun _ => .ok [(("properties"), .dict [(("owner_id"), .jstr ("x"))])],
     fun v => .error (.keyError v), fun v _ => .error (.keyError v),
     fun v => .error (.keyError v)⟩
    0 (RequestContext.mk none false (some ("t")) none) ("v1")
    [(("properties"), .dict [(("owner_id"), .jstr ("x"))])]
    (by decide) (by decide)).1

theorem callRetryE_err {α : Type} (e : PyExc) (n : Nat)
    (h : e ≠ .cinder .clientConnectionError) :
    callRetryE (Except.error e : Except PyExc α) n = .error e := by
  have hout : outcomeOf (Except.error e : Except PyExc α) = .raise e := by
    cases e with
    | cinder ce => cases ce <;> simp_all [outcomeOf]
    | _ => rfl
  simp [callRetryE, callRetry, callRetryAux, hout]

theorem callRetryE_conn {α : Type} (n : Nat) :
    callRetryE (Except.error (.cinder .clientConnectionError) : Except PyExc α) n
      = .error .cinderConnectionFailed := by
  have hout : ∀ i : Nat,
      (fun _ : Nat => outcomeOf (Except.error (.cinder .clientConnectionError) :
        Except PyExc α)) i = .connError := fun _ => rfl
  have := callRetryAux_allConn
    (fun _ : Nat => outcomeOf (Except.error (.cinder .clientConnectionError) : Except PyExc α))
    (n + 1) 0 (fun j _ => hout (0 + j))
  simp [callRetryE, callRetry, this]

/-- C5 (counterexample): a delete whose pre-checks pass but whose remote
delete call fails with cinder Forbidden surfaces the raw Forbidden, not the
record-scoped volumeNotAuthorized the claim promises for delete. -/
theorem c5_counterexample :
    deleteVolume
      ⟨fun _ => .ok [(("properties"), .dict [])],
       fun v => .error (.keyError v), fun v _ => .error (.keyError v),
       fun _ => .error (.cinder .forbidden)⟩
      0 (RequestContext.mk (some ("tok")) false (some ("t")) none) ("v1") ("keystone")
      = .error (.cinder .forbidden) ∧
    (PyExc.cinder .forbidden) ≠ .volumeNotAuthorized ("v1") := by
  decide

/-- C5 (amended): the _translate_volume_exception table maps Forbidden,
NotAuthenticated and MissingCredential to the record-scoped
volumeNotAuthorized, NotFound to the record-scoped volumeNotFound, Invalid
to Invalid with the original detail, and passes every other failure through
unchanged; show, get and update surface remote failures through that table
(an exhausted connection surfacing as cinderConnectionFailed); delete's own
remote call translates only NotFound, passing every other failure through
raw. -/
theorem c5_exception_translation :
    (∀ volume_id : String,
      translateVolumeException volume_id (.cinder .forbidden) = .volumeNotAuthorized volume_id ∧
      translateVolumeException volume_id (.cinder .notAuthenticated)
        = .volumeNotAuthorized volume_id ∧
      translateVolumeException volume_id (.cinder .missingCredentialError)
        = .volumeNotAuthorized volume_id ∧
      translateVolumeException volume_id (.cinder .notFound) = .volumeNotFound volume_id ∧
      (∀ d, translateVolumeException volume_id (.cinder (.invalid d)) = .invalid d)) ∧
    (∀ (volume_id : String) (e : PyExc),
      e ≠ .cinder .forbidden → e ≠ .cinder .notAuthenticated →
      e ≠ .cinder .missingCredentialError → e ≠ .cinder .notFound →
      (∀ d, e ≠ .cinder (.invalid d)) →
      translateVolumeException volume_id e = e) ∧
    (∀ (client : CinderClient) (n : Nat) (context : RequestContext) (volume_id : String)
       (e : PyExc),
      client.get_volume_meta volume_id = .error e → e ≠ .cinder .clientConnectionError →
      showVolume client n context volume_id = .error (translateVolumeException volume_id e)) ∧
    (∀ (client : CinderClient) (n : Nat) (context : RequestContext) (volume_id : String),
      client.get_volume_meta volume_id = .error (.cinder .clientConnectionError) →
      showVolume client n context volume_id = .error .cinderConnectionFailed) ∧
    (∀ (client : CinderClient) (n : Nat) (volume_id : String) (e : PyExc),
      client.get_volume volume_id = .error e → e ≠ .cinder .clientConnectionError →
      getVolume client n volume_id = .error (translateVolumeException volume_id e)) ∧
    (∀ (client : CinderClient) (n : Nat) (context : RequestContext) (volume_id : String)
       (volume_meta shown sent : PyDict) (e : PyExc),
      showVolume client n context volume_id = .ok shown →
      translateToCinder volume_meta = .ok sent →
      client.update_volume volume_id sent = .error e →
      updateVolume client n context volume_id volume_meta
        = .error (translateVolumeException volume_id e)) ∧
    (∀ (client : CinderClient) (n : Nat) (context : RequestContext) (volume_id : String)
       (shown : PyDict) (auth_strategy : String),
      showVolume client n context volume_id = .ok shown → auth_strategy ≠ ("deprecated") →
      client.delete_volume volume_id = .error (.cinder .notFound) →
      deleteVolume client n context volume_id auth_strategy
        = .error (.volumeNotFound volume_id)) ∧
    (∀ (client : CinderClient) (n : Nat) (context : RequestContext) (volume_id : String)
       (shown : PyDict) (auth_strategy : String) (e : PyExc),
      showVolume client n context volume_id = .ok shown → auth_strategy ≠ ("deprecated") →
      client.delete_volume volume_id = .error e → e ≠ .cinder .notFound →
      deleteVolume client n context volume_id auth_strategy = .error e) := by
  refine ⟨?_, ?_, ?_, ?_, ?_, ?_, ?_, ?_⟩
  · intro vid
    exact ⟨rfl, rfl, rfl, rfl, fun d => rfl⟩
  · intro vid e h1 h2 h3 h4 h5
    cases e with
    | cinder ce => cases ce <;> simp_all [translateVolumeException]
    | _ => rfl
  · intro client n context vid e he hconn
    unfold showVolume
    rw [he, callRetryE_err e n hconn]
    simp [mapVolErr, Bind.bind, Except.bind]
  · intro client n context vid he
    unfold showVolume
    rw [he, callRetryE_conn]
    simp [mapVolErr, Bind.bind, Except.bind, translateVolumeException]
  · intro client n vid e he hconn
    unfold getVolume
    rw [he, callRetryE_err e n hconn]
    simp [mapVolErr, Bind.bind, Except.bind]
  · intro client n context vid meta shown sent e hshow htrans hupd
    unfold updateVolume
    rw [hshow, htrans]
    simp [mapVolErr, Bind.bind, Except.bind, hupd]
  · intro client n context vid shown strat hshow hstrat hdel
    unfold deleteVolume
    rw [hshow, hdel]
    simp [Bind.bind, Except.bind, if_neg hstrat]
  · intro client n context vid shown strat e hshow hstrat hdel hne
    unfold deleteVolume
    rw [hshow, hdel]
    cases e with
    | cinder ce => cases ce <;> simp_all [Bind.bind, Except.bind, if_neg hstrat]
    | _ => simp [Bind.bind, Except.bind, if_neg hstrat]

/-- C5 (witness): the translation table and a concrete show surfacing a
translated Forbidden. -/
theorem c5_exception_translation_witness :
    translateVolumeException ("v1") (.cinder .forbidden) = .volumeNotAuthorized ("v1") ∧
    showVolume
      ⟨fun _ => .error (.cinder .forbidden), fun v => .error (.keyError v),
       fun v _ => .error (.keyError v), fun v => .error (.keyError v)⟩
      0 (RequestContext.mk none false (some ("t")) none) ("v1")
      = .error (translateVolumeException ("v1") (.cinder .forbidden)) :=
  ⟨(c5_exception_translation.1 ("v1")).1,
   c5_exception_translation.2.2.1
     ⟨fun _ => .error (.cinder .forbidden), fun v => .error (.keyError v),
      fun v _ => .error (.keyError v), fun v => .error (.keyError v)⟩
     0 (RequestContext.mk none false (some ("t")) none) ("v1") (.cinder .forbidden)
     (by decide) (by decide)⟩

theorem fetchVolumes_empty (fetch : Option MVal → Option Int → List VolRec) (fuel : Nat)
    (marker : Option MVal) (limit : Option Int) (h : fetch marker limit = []) :
    fetchVolumes fetch (fuel + 1) marker limit = some ([], .ok) := by
  conv_lhs => unfold fetchVolumes
  simp only [h]

theorem fetchVolumes_pagFailed (fetch : Option MVal → Option Int → List VolRec) (fuel : Nat)
    (marker : Option MVal) (limit : Option Int) (v : VolRec) (vs : List VolRec)
    (h : fetch marker limit = v :: vs) (hid : dget? (vs.getLastD v) ("id") = none) :
    fetchVolumes fetch (fuel + 1) marker limit = some (v :: vs, .pagFailed) := by
  conv_lhs => unfold fetchVolumes
  simp only [h, hid]

theorem fetchVolumes_step_noLimit (fetch : Option MVal → Option Int → List VolRec) (fuel : Nat)
    (marker : Option MVal) (v : VolRec) (vs : List VolRec) (mid : MVal)
    (h : fetch marker none = v :: vs) (hid : dget? (vs.getLastD v) ("id") = some mid) :
    fetchVolumes fetch (fuel + 1) marker none
      = match fetchVolumes fetch fuel (some mid) none with
        | none => none
        | some r => some (v :: vs ++ r.1, r.2) := by
  conv_lhs => unfold fetchVolumes
  simp only [h, hid]

theorem fetchVolumes_limit_stop (fetch : Option MVal → Option Int → List VolRec) (fuel : Nat)
    (marker : Option MVal) (l : Int) (v : VolRec) (vs : List VolRec) (mid : MVal)
    (h : fetch marker (some l) = v :: vs) (hid : dget? (vs.getLastD v) ("id") = some mid)
    (hstop : l - ((v :: vs).length : Int) ≤ 0) :
    fetchVolumes fetch (fuel + 1) marker (some l) = some (v :: vs, .ok) := by
  conv_lhs => unfold fetchVolumes
  simp only [h, hid]
  rw [if_pos hstop]

theorem fetchVolumes_limit_go (fetch : Option MVal → Option Int → List VolRec) (fuel : Nat)
    (marker : Option MVal) (l : Int) (v : VolRec) (vs : List VolRec) (mid : MVal)
    (h : fetch marker (some l) = v :: vs) (hid : dget? (vs.getLastD v) ("id") = some mid)
    (hgo : ¬ l - ((v :: vs).length : Int) ≤ 0) :
    fetchVolumes fetch (fuel + 1) marker (some l)
      = match fetchVolumes fetch fuel (some mid) (some (l - (v :: vs).length)) with
        | none => none
        | some r => some (v :: vs ++ r.1, r.2) := by
  conv_lhs => unfold fetchVolumes
  simp only [h, hid]
  rw [if_neg hgo]

theorem pagesAfter_suffix (mv : MVal) :
    ∀ pages : List (List VolRec), ∃ pre, pages = pre ++ pagesAfter pages mv := by
  intro pages
  induction pages with
  | nil => exact ⟨[], rfl⟩
  | cons p ps ih =>
    by_cases h : lastId p = some mv
    · exact ⟨[p], by simp [pagesAfter, h]⟩
    · obtain ⟨pre, hpre⟩ := ih
      exact ⟨p :: pre, by simp [pagesAfter, h]; exact hpre⟩

theorem pagesAfter_append_eq :
    ∀ (pre : List (List VolRec)) (p : List VolRec) (ps : List (List VolRec)) (mv : MVal),
    lastId p = some mv → (∀ q ∈ pre, lastId q ≠ some mv) →
    pagesAfter (pre ++ p :: ps) mv = ps := by
  intro pre
  induction pre with
  | nil => intro p ps mv hp _; simp [pagesAfter, hp]
  | cons q qs ih =>
    intro p ps mv hp hpre
    have hq : lastId q ≠ some mv := hpre q (by simp)
    simp only [List.cons_append, pagesAfter, if_neg hq]
    exact ih p ps mv hp (fun x hx => hpre x (by simp [hx]))

theorem fetchVolumes_pageServe (pages : List (List VolRec))
    (h1 : ∀ p ∈ pages, p ≠ [])
    (h2 : ∀ p ∈ pages, (lastId p).isSome = true)
    (h3 : List.Pairwise (fun a b => lastId a ≠ lastId b) pages) :
    ∀ (suffix : List (List VolRec)) (marker : Option MVal),
    ((marker = none ∧ suffix = pages) ∨
      (∃ mv, marker = some mv ∧ pagesAfter pages mv = suffix)) →
    fetchVolumes (pageServe pages) (suffix.length + 1) marker none
      = some (suffix.flatten, .ok) := by
  intro suffix
  induction suffix with
  | nil =>
    intro marker hrel
    have hserve : pageServe pages marker none = [] := by
      rcases hrel with ⟨rfl, rfl⟩ | ⟨mv, rfl, hafter⟩
      · rfl
      · simp [pageServe, hafter]
    rw [fetchVolumes_empty _ _ _ _ hserve]
    rfl
  | cons p ps ih =>
    intro marker hrel
    have hpre : ∃ pre, pages = pre ++ p :: ps := by
      rcases hrel with ⟨rfl, rfl⟩ | ⟨mv, rfl, hafter⟩
      · exact ⟨[], rfl⟩
      · obtain ⟨pre, hpre⟩ := pagesAfter_suffix mv pages
        rw [hafter] at hpre
        exact ⟨pre, hpre⟩
    obtain ⟨pre, hpages⟩ := hpre
    have hpmem : p ∈ pages := by rw [hpages]; simp
    have hpne : p ≠ [] := h1 p hpmem
    obtain ⟨v, vs, rfl⟩ := List.exists_cons_of_ne_nil hpne
    obtain ⟨mid, hmid⟩ := Option.isSome_iff_exists.mp (h2 _ hpmem)
    have hserve : pageServe pages marker none = v :: vs := by
      rcases hrel with ⟨rfl, hsuf⟩ | ⟨mv, rfl, hafter⟩
      · simp [pageServe, ← hsuf]
      · simp [pageServe, hafter]
    have hnext : pagesAfter pages mid = ps := by
      rw [hpages]
      refine pagesAfter_append_eq pre _ ps mid hmid ?_
      have hpw := h3
      rw [hpages] at hpw
      have := (List.pairwise_append.mp hpw).2.2
      intro q hq
      have hne := this q hq (v :: vs) (by simp)
      rw [hmid] at hne
      exact hne
    have hrec := ih (some mid) (Or.inr ⟨mid, rfl, hnext⟩)
    have hmid' : dget? (vs.getLastD v) ("id") = some mid := hmid
    simp only [List.length_cons]
    rw [fetchVolumes_step_noLimit (pageServe pages) (ps.length + 1) marker v vs mid hserve hmid',
      hrec]
    simp

/-- C2: the paginating lister, with no limit, yields the concatenation of a
backing page sequence in order and terminates; an empty first page ends the
sequence cleanly; a supplied limit is decremented by each page's size and
the sequence ends once the remaining budget is zero or below; on the mock
backend with pages of sizes [3,3,2,0] it yields exactly 8 records with no
limit and exactly 5 with limit 5. -/
theorem c2_pagination :
    (∀ pages : List (List VolRec),
      (∀ p ∈ pages, p ≠ []) →
      (∀ p ∈ pages, (lastId p).isSome = true) →
      List.Pairwise (fun a b => lastId a ≠ lastId b) pages →
      fetchVolumes (pageServe pages) (pages.length + 1) none none
        = some (pages.flatten, .ok)) ∧
    (∀ (fetch : Option MVal → Option Int → List VolRec) (fuel : Nat)
       (marker : Option MVal) (limit : Option Int), fetch marker limit = [] →
      fetchVolumes fetch (fuel + 1) marker limit = some ([], .ok)) ∧
    (∀ (fetch : Option MVal → Option Int → List VolRec) (fuel : Nat)
       (marker : Option MVal) (l : Int) (v : VolRec) (vs : List VolRec) (mid : MVal),
      fetch marker (some l) = v :: vs →
      dget? (vs.getLastD v) ("id") = some mid →
      l - ((v :: vs).length : Int) ≤ 0 →
      fetchVolumes fetch (fuel + 1) marker (some l) = some (v :: vs, .ok)) ∧
    fetchVolumes mockFetch 5 none none = some (mockStore, .ok) ∧
    mockStore.length = 8 ∧
    fetchVolumes mockFetch 5 none (some 5) = some (mockStore.take 5, .ok) ∧
    (mockStore.take 5).length = 5 := by
  refine ⟨?_, fetchVolumes_empty, fetchVolumes_limit_stop, by decide, by decide, by decide,
    by decide⟩
  intro pages hne hid hpw
  exact fetchVolumes_pageServe pages hne hid hpw pages none (Or.inl ⟨rfl, rfl⟩)

/-- C2 (witness): a concrete two-page backing sequence, fully consumed. -/
theorem c2_pagination_witness :
    fetchVolumes (pageServe [[mockRec 1], [mockRec 2]]) 3 none none
      = some (([[mockRec 1], [mockRec 2]] : List (List VolRec)).flatten, .ok) :=
  c2_pagination.1 [[mockRec 1], [mockRec 2]] (by decide) (by decide) (by decide)

/-- C9: after every non-empty page whose last record carries an id, the
lister recurses with the marker advanced to that id (both without a limit
and with a still-positive remaining limit); if the last record lacks an id,
the page is yielded and the generator then fails with the terminal
volumePaginationFailed rather than continuing or stopping silently. -/
theorem c9_marker_advance :
    (∀ (fetch : Option MVal → Option Int → List VolRec) (fuel : Nat)
       (marker : Option MVal) (v : VolRec) (vs : List VolRec) (mid : MVal),
      fetch marker none = v :: vs →
      dget? (vs.getLastD v) ("id") = some mid →
      fetchVolumes fetch (fuel + 1) marker none
        = match fetchVolumes fetch fuel (some mid) none with
          | none => none
          | some r => some (v :: vs ++ r.1, r.2)) ∧
    (∀ (fetch : Option MVal → Option Int → List VolRec) (fuel : Nat)
       (marker : Option MVal) (l : Int) (v : VolRec) (vs : List VolRec) (mid : MVal),
      fetch marker (some l) = v :: vs →
      dget? (vs.getLastD v) ("id") = some mid →
      ¬ l - ((v :: vs).length : Int) ≤ 0 →
      fetchVolumes fetch (fuel + 1) marker (some l)
        = match fetchVolumes fetch fuel (some mid) (some (l - (v :: vs).length)) with
          | none => none
          | some r => some (v :: vs ++ r.1, r.2)) ∧
    (∀ (fetch : Option MVal → Option Int → List VolRec) (fuel : Nat)
       (marker : Option MVal) (limit : Option Int) (v : VolRec) (vs : List VolRec),
      fetch marker limit = v :: vs →
      dget? (vs.getLastD v) ("id") = none →
      fetchVolumes fetch (fuel + 1) marker limit = some (v :: vs, .pagFailed)) :=
  ⟨fetchVolumes_step_noLimit, fetchVolumes_limit_go, fetchVolumes_pagFailed⟩

/-- C9 (witness): a backend whose page's last record lacks an id fails with
the pagination error right after yielding the page — it does not continue
even though the backend would keep serving pages. -/
theorem c9_marker_advance_witness :
    fetchVolumes (fun _ _ => [[(("name"), MVal.jsn (.jstr ("x")))]]) 7 none none
      = some ([[(("name"), MVal.jsn (.jstr ("x")))]], .pagFailed) :=
  c9_marker_advance.2.2 (fun _ _ => [[(("name"), MVal.jsn (.jstr ("x")))]]) 6 none none
    [(("name"), MVal.jsn (.jstr ("x")))] [] (by decide) (by decide)

theorem dget?_dset_self {α : Type} (m : List (String × α)) (k : String) (v : α) :
    dget? (dset m k v) k = some v := by
  induction m with
  | nil => simp [dset, dget?]
  | cons kv rest ih =>
    by_cases h : kv.1 = k
    · simp [dset, dget?, h]
    · simp [dset, dget?, h, ih]

theorem dget?_dset_ne {α : Type} (m : List (String × α)) (k k' : String) (v : α)
    (h : k ≠ k') : dget? (dset m k v) k' = dget? m k' := by
  induction m with
  | nil => simp [dset, dget?, h]
  | cons kv rest ih =>
    by_cases hk : kv.1 = k
    · simp [dset, dget?, hk, h]
    · by_cases hk' : kv.1 = k'
      · simp [dset, dget?, hk, hk', Ne.symm h]
      · simp [dset, dget?, hk, hk', ih]

theorem dset_dset {α : Type} (m : List (String × α)) (k : String) (v w : α) :
    dset (dset m k v) k w = dset m k w := by
  induction m with
  | nil => simp [dset]
  | cons kv rest ih =>
    by_cases h : kv.1 = k
    · simp [dset, h]
    · simp [dset, h, ih]

theorem dset_comm_of_mem {α : Type} (m : List (String × α)) (k k' : String) (v w : α)
    (h : k ≠ k') (hk0 : (dget? m k).isSome = true) :
    dset (dset m k' w) k v = dset (dset m k v) k' w := by
  induction m with
  | nil => simp [dget?] at hk0
  | cons kv rest ih =>
    by_cases hk : kv.1 = k
    · have hk' : kv.1 ≠ k' := by rw [hk]; exact h
      simp [dset, hk, hk', Ne.symm h, h]
    · by_cases hk' : kv.1 = k'
      · simp [dset, hk, hk', h, Ne.symm h]
      · have hk0' : (dget? rest k).isSome = true := by
          simp only [dget?, hk, if_neg hk] at hk0
          exact hk0
        simp [dset, hk, hk', ih hk0']

theorem dset_self {α : Type} (m : List (String × α)) (k : String) (v : α)
    (h : dget? m k = some v) : dset m k v = m := by
  induction m with
  | nil => simp [dget?] at h
  | cons kv rest ih =>
    by_cases hk : kv.1 = k
    · simp only [dget?, hk, if_pos rfl] at h
      cases h
      simp [dset, hk]
      exact Prod.ext hk.symm rfl
    · simp only [dget?, hk, if_neg hk] at h
      simp [dset, hk, ih h]

theorem dset_ne_nil {α : Type} (m : List (String × α)) (k : String) (v : α) :
    dset m k v ≠ [] := by
  cases m with
  | nil => simp [dset]
  | cons kv rest => simp only [dset]; split <;> simp

theorem jsonDumpsProp_none (properties : List (String × Json)) (attr : String)
    (h : dget? properties attr = none) : jsonDumpsProp properties attr = properties := by
  unfold jsonDumpsProp
  rw [h]

theorem jsonDumpsProp_nonstr (properties : List (String × Json)) (attr : String) (v : Json)
    (h : dget? properties attr = some v) (hns : ∀ s, v ≠ .jstr s) :
    jsonDumpsProp properties attr = dset properties attr (.jstr (jdumps v)) := by
  unfold jsonDumpsProp
  rw [h]
  cases v with
  | jstr s => exact absurd rfl (hns s)
  | _ => rfl

theorem jsonLoadsProp_none (properties : List (String × Json)) (attr : String)
    (h : dget? properties attr = none) : jsonLoadsProp properties attr = .ok properties := by
  unfold jsonLoadsProp
  rw [h]

theorem jsonLoadsProp_str (properties : List (String × Json)) (attr : String) (s : String)
    (h : dget? properties attr = some (.jstr s)) :
    jsonLoadsProp properties attr
      = match jloads s with
        | some v => .ok (dset properties attr v)
        | none => .error .valueError := by
  unfold jsonLoadsProp
  rw [h]

theorem jsonDumpsProp_ne_nil (properties : List (String × Json)) (attr : String)
    (h : properties ≠ []) : jsonDumpsProp properties attr ≠ [] := by
  unfold jsonDumpsProp
  cases hd : dget? properties attr with
  | none => exact h
  | some v => cases v <;> first | exact h | exact dset_ne_nil properties attr _

/-- Dumping then loading the two designated property slots restores the
properties dict exactly, provided the stored values are not strings. -/
theorem loads_dumps_slots (properties : List (String × Json))
    (hb : ∀ v, dget? properties ("block_device_mapping") = some v → ∀ s, v ≠ .jstr s)
    (hm : ∀ v, dget? properties ("mappings") = some v → ∀ s, v ≠ .jstr s) :
    (jsonLoadsProp
        (jsonDumpsProp (jsonDumpsProp properties ("block_device_mapping")) ("mappings"))
        ("block_device_mapping")).bind
      (fun q => jsonLoadsProp q ("mappings")) = .ok properties := by
  have hbm : ("block_device_mapping" : String) ≠ ("mappings") := by decide
  cases cb : dget? properties ("block_device_mapping") with
  | none =>
    rw [jsonDumpsProp_none _ _ cb]
    cases cm : dget? properties ("mappings") with
    | none =>
      rw [jsonDumpsProp_none _ _ cm, jsonLoadsProp_none _ _ cb]
      simp only [Except.bind]
      rw [jsonLoadsProp_none _ _ cm]
    | some w =>
      have hwns := hm w cm
      rw [jsonDumpsProp_nonstr _ _ w cm hwns]
      have hb' : dget? (dset properties ("mappings") (.jstr (jdumps w)))
          ("block_device_mapping") = none := by
        rw [dget?_dset_ne _ _ _ _ (Ne.symm hbm)]
        exact cb
      rw [jsonLoadsProp_none _ _ hb']
      simp only [Except.bind]
      rw [jsonLoadsProp_str _ _ _ (dget?_dset_self _ _ _)]
      simp only [jloads_jdumps]
      rw [dset_dset, dset_self _ _ _ cm]
  | some v =>
    have hvns := hb v cb
    rw [jsonDumpsProp_nonstr _ _ v cb hvns]
    cases cm : dget? properties ("mappings") with
    | none =>
      have cm' : dget? (dset properties ("block_device_mapping") (.jstr (jdumps v)))
          ("mappings") = none := by
        rw [dget?_dset_ne _ _ _ _ hbm]
        exact cm
      rw [jsonDumpsProp_none _ _ cm',
        jsonLoadsProp_str _ _ _ (dget?_dset_self _ _ _)]
      simp only [jloads_jdumps, Except.bind]
      rw [dset_dset, dset_self _ _ _ cb]
      rw [jsonLoadsProp_none _ _ cm]
    | some w =>
      have hwns := hm w cm
      have cm' : dget? (dset properties ("block_device_mapping") (.jstr (jdumps v)))
          ("mappings") = some w := by
        rw [dget?_dset_ne _ _ _ _ hbm]
        exact cm
      rw [jsonDumpsProp_nonstr _ _ w cm' hwns]
      have hbslot : dget? (dset (dset properties ("block_device_mapping") (.jstr (jdumps v)))
          ("mappings") (.jstr (jdumps w))) ("block_device_mapping")
          = some (.jstr (jdumps v)) := by
        rw [dget?_dset_ne _ _ _ _ (Ne.symm hbm)]
        exact dget?_dset_self _ _ _
      rw [jsonLoadsProp_str _ _ _ hbslot]
      simp only [jloads_jdumps, Except.bind]
      have hswap1 : dset (dset properties ("block_device_mapping") (.jstr (jdumps v)))
          ("mappings") (.jstr (jdumps w))
          = dset (dset properties ("mappings") (.jstr (jdumps w)))
              ("block_device_mapping") (.jstr (jdumps v)) :=
        (dset_comm_of_mem properties ("block_device_mapping") ("mappings")
          (.jstr (jdumps v)) (.jstr (jdumps w)) hbm (by simp [cb])).symm
      rw [hswap1, dset_dset]
      have hmslot : dget? (dset (dset properties ("mappings") (.jstr (jdumps w)))
          ("block_device_mapping") v) ("mappings") = some (.jstr (jdumps w)) := by
        rw [dget?_dset_ne _ _ _ _ hbm]
        exact dget?_dset_self _ _ _
      rw [jsonLoadsProp_str _ _ _ hmslot]
      simp only [jloads_jdumps]
      have hswap2 : dset (dset (dset properties ("mappings") (.jstr (jdumps w)))
          ("block_device_mapping") v) ("mappings") w
          = dset (dset (dset properties ("mappings") (.jstr (jdumps w))) ("mappings") w)
              ("block_device_mapping") v :=
        dset_comm_of_mem (dset properties ("mappings") (.jstr (jdumps w)))
          ("mappings") ("block_device_mapping") w v (Ne.symm hbm) (by simp [dget?_dset_self])
      rw [hswap2, dset_dset, dset_self _ _ _ cm, dset_self _ _ _ cb]

theorem if_dmem_dumps (properties : List (String × Json)) (attr : String) :
    (if dmem properties attr
      then (Except.ok (jsonDumpsProp properties attr) : Except PyExc (List (String × Json)))
      else .ok properties) = .ok (jsonDumpsProp properties attr) := by
  cases h : dget? properties attr with
  | some v => simp [dmem, h]
  | none => simp [dmem, h, jsonDumpsProp_none _ _ h]

theorem if_dmem_loads (properties : List (String × Json)) (attr : String) :
    (if dmem properties attr then jsonLoadsProp properties attr else .ok properties)
      = jsonLoadsProp properties attr := by
  cases h : dget? properties attr with
  | some v => simp [dmem, h]
  | none => simp [dmem, h, jsonLoadsProp_none _ _ h]

theorem convertWith_empty (method : List (String × Json) → String →
      Except PyExc (List (String × Json))) (m : PyDict)
    (hq : dget? m ("properties") = some (.dict [])) :
    convertWith method m = .ok m := by
  unfold convertWith
  simp only [hq]
  simp [truthyM]

theorem convertToString_eq (m : PyDict) (properties : List (String × Json))
    (hq : dget? m ("properties") = some (.dict properties)) (hne : properties ≠ []) :
    convertToString m = .ok (dset m ("properties")
      (.dict (jsonDumpsProp (jsonDumpsProp properties ("block_device_mapping"))
        ("mappings")))) := by
  unfold convertToString convertWith
  simp only [hq]
  have htr : truthyM (.dict properties) = true := by simp [truthyM, hne]
  simp only [htr, if_true, Bind.bind, Except.bind, if_dmem_dumps]

theorem convertFromString_restore (m : PyDict) (q props : List (String × Json))
    (hq : dget? m ("properties") = some (.dict q)) (hQne : q ≠ [])
    (hrt : (jsonLoadsProp q ("block_device_mapping")).bind
      (fun p1 => jsonLoadsProp p1 ("mappings")) = .ok props) :
    convertFromString m = .ok (dset m ("properties") (.dict props)) := by
  unfold convertFromString convertWith
  simp only [hq]
  have htr : truthyM (.dict q) = true := by simp [truthyM, hQne]
  simp only [htr, if_true, Bind.bind, Except.bind, if_dmem_loads]
  cases hl1 : jsonLoadsProp q ("block_device_mapping") with
  | error e => rw [hl1] at hrt; simp [Except.bind] at hrt
  | ok p1 =>
    rw [hl1] at hrt
    simp only [Except.bind] at hrt ⊢
    rw [hrt]

theorem convertTimestampAttr_ok (m : PyDict) (attr : String) (h : TimeOK (dgetM m attr)) :
    ∃ m', convertTimestampAttr m attr = .ok m' ∧
      ∀ k, k ≠ attr → dget? m' k = dget? m k := by
  by_cases ht : truthyM (dgetM m attr) = true
  · rcases h with hf | ⟨s, hv, hp⟩
    · rw [ht] at hf; cases hf
    · obtain ⟨t, hts⟩ := Option.isSome_iff_exists.mp hp
      refine ⟨dset m attr (.dtime t), ?_, ?_⟩
      · unfold convertTimestampAttr
        rw [if_pos ht, hv]
        show (match parsePyDatetime s with
              | some t => (Except.ok (dset m attr (.dtime t)) : Except PyExc PyDict)
              | none => .error .valueError) = Except.ok (dset m attr (.dtime t))
        rw [hts]
      · intro k hk
        exact dget?_dset_ne m attr k _ (Ne.symm hk)
  · refine ⟨m, ?_, fun _ _ => rfl⟩
    unfold convertTimestampAttr
    rw [if_neg ht]

theorem convertTimestamps_ok (m : PyDict)
    (h1 : TimeOK (dgetM m ("created_at")))
    (h2 : TimeOK (dgetM m ("updated_at")))
    (h3 : TimeOK (dgetM m ("deleted_at"))) :
    ∃ m', convertTimestampsToDatetimes m = .ok m' ∧
      ∀ k, k ≠ ("created_at") → k ≠ ("updated_at") → k ≠ ("deleted_at") →
        dget? m' k = dget? m k := by
  obtain ⟨ma, hea, hpa⟩ := convertTimestampAttr_ok m ("created_at") h1
  have h2a : TimeOK (dgetM ma ("updated_at")) := by
    unfold dgetM
    rw [hpa _ (by decide)]
    exact h2
  obtain ⟨mb, heb, hpb⟩ := convertTimestampAttr_ok ma ("updated_at") h2a
  have h3b : TimeOK (dgetM mb ("deleted_at")) := by
    unfold dgetM
    rw [hpb _ (by decide), hpa _ (by decide)]
    exact h3
  obtain ⟨mc, hec, hpc⟩ := convertTimestampAttr_ok mb ("deleted_at") h3b
  refine ⟨mc, ?_, ?_⟩
  · unfold convertTimestampsToDatetimes
    rw [hea]
    simp only [Bind.bind, Except.bind]
    rw [heb]
    simp only [Except.bind]
    exact hec
  · intro k hk1 hk2 hk3
    rw [hpc _ hk3, hpb _ hk2, hpa _ hk1]

theorem limitAttributes_props (m : PyDict) :
    dget? (limitAttributes m) ("properties")
      = some ((dget? m ("properties")).getD (.dict [])) := rfl

theorem limitAttributes_created (m : PyDict) :
    dgetM (limitAttributes m) ("created_at") = dgetM m ("created_at") := rfl

theorem limitAttributes_updated (m : PyDict) :
    dgetM (limitAttributes m) ("updated_at") = dgetM m ("updated_at") := rfl

theorem limitAttributes_deleted (m : PyDict) :
    dgetM (limitAttributes m) ("deleted_at") = dgetM m ("deleted_at") := rfl

theorem nonstr_of_eq (props : List (String × Json)) (attr : String) (x : Json)
    (hx : dget? props attr = some x) (hxs : ∀ s, x ≠ .jstr s) :
    ∀ v, dget? props attr = some v → ∀ s, v ≠ .jstr s := by
  intro v hv
  rw [hx] at hv
  cases hv
  exact hxs

theorem nonstr_of_none (props : List (String × Json)) (attr : String)
    (hx : dget? props attr = none) :
    ∀ v, dget? props attr = some v → ∀ s, v ≠ .jstr s := by
  intro v hv
  rw [hx] at hv
  cases hv

theorem convertToString_empty (m : PyDict) (hq : dget? m ("properties") = some (.dict [])) :
    convertToString m = .ok m := by
  unfold convertToString
  exact convertWith_empty _ m hq

theorem convertFromString_empty (m : PyDict) (hq : dget? m ("properties") = some (.dict [])) :
    convertFromString m = .ok m := by
  unfold convertFromString
  exact convertWith_empty _ m hq

/-- C4 (counterexample): a record in local form — parsed datetime in
created_at, structured (non-string) block_device_mapping — makes
from_remote(to_remote(x)) raise TypeError in the timestamp conversion
instead of reproducing the structured properties. -/
theorem c4_counterexample :
    (∀ v, dget? [(("block_device_mapping"),
        Json.arr (.cons (.obj (.cons ("device") (.jstr ("vda")) .nil)) .nil))]
        ("block_device_mapping") = some v → ∀ s, v ≠ .jstr s) ∧
    (translateToCinder
        [(("created_at"), .dtime ⟨2012, 1, 1, 1, 2, 3, 0⟩),
         (("properties"), .dict [(("block_device_mapping"),
           Json.arr (.cons (.obj (.cons ("device") (.jstr ("vda")) .nil)) .nil))])]).bind
      translateFromCinder = .error .typeError := by
  constructor
  · exact nonstr_of_eq _ _
      (Json.arr (.cons (.obj (.cons ("device") (.jstr ("vda")) .nil)) .nil))
      (by decide) (by intro s; simp)
  · decide

/-- C4 (amended): for a record whose designated structured properties are
non-string JSON values and whose timestamp slots are falsy or wire-format
strings, from_remote(to_remote(x)) succeeds and reproduces the whole
properties dict — in particular each designated structured property —
exactly. -/
theorem c4_roundtrip (volume_meta : PyDict) (properties : List (String × Json))
    (hprops : dget? volume_meta ("properties") = some (.dict properties))
    (hb : ∀ v, dget? properties ("block_device_mapping") = some v → ∀ s, v ≠ .jstr s)
    (hm : ∀ v, dget? properties ("mappings") = some v → ∀ s, v ≠ .jstr s)
    (ht1 : TimeOK (dgetM volume_meta ("created_at")))
    (ht2 : TimeOK (dgetM volume_meta ("updated_at")))
    (ht3 : TimeOK (dgetM volume_meta ("deleted_at"))) :
    ∃ out, (translateToCinder volume_meta).bind translateFromCinder = .ok out ∧
      dget? out ("properties") = some (.dict properties) := by
  have hprop_ne_times : (("properties") : String) ≠ ("created_at") ∧
      (("properties") : String) ≠ ("updated_at") ∧
      (("properties") : String) ≠ ("deleted_at") := by
    refine ⟨?_, ?_, ?_⟩ <;> decide
  unfold translateToCinder
  by_cases hne : properties = []
  · subst hne
    have hTo : convertToString volume_meta = .ok volume_meta :=
      convertToString_empty volume_meta hprops
    rw [hTo]
    simp only [Except.bind]
    unfold translateFromCinder
    have ht1' : TimeOK (dgetM (limitAttributes volume_meta) ("created_at")) := by
      rw [limitAttributes_created]; exact ht1
    have ht2' : TimeOK (dgetM (limitAttributes volume_meta) ("updated_at")) := by
      rw [limitAttributes_updated]; exact ht2
    have ht3' : TimeOK (dgetM (limitAttributes volume_meta) ("deleted_at")) := by
      rw [limitAttributes_deleted]; exact ht3
    obtain ⟨m2, hm2, hm2p⟩ := convertTimestamps_ok (limitAttributes volume_meta) ht1' ht2' ht3'
    have hq2 : dget? m2 ("properties") = some (.dict []) := by
      rw [hm2p _ hprop_ne_times.1 hprop_ne_times.2.1 hprop_ne_times.2.2,
        limitAttributes_props, hprops]
      rfl
    simp only [Bind.bind, Except.bind]
    rw [hm2]
    simp only [Except.bind]
    rw [convertFromString_empty m2 hq2]
    exact ⟨m2, rfl, hq2⟩
  · have hTo := convertToString_eq volume_meta properties hprops hne
    have hQne : jsonDumpsProp (jsonDumpsProp properties ("block_device_mapping"))
        ("mappings") ≠ [] :=
      jsonDumpsProp_ne_nil _ _ (jsonDumpsProp_ne_nil _ _ hne)
    rw [hTo]
    simp only [Except.bind]
    unfold translateFromCinder
    have hM1 : dget? (limitAttributes (dset volume_meta ("properties")
        (.dict (jsonDumpsProp (jsonDumpsProp properties ("block_device_mapping"))
          ("mappings"))))) ("properties")
        = some (.dict (jsonDumpsProp (jsonDumpsProp properties ("block_device_mapping"))
            ("mappings"))) := by
      rw [limitAttributes_props, dget?_dset_self]
      rfl
    have ht1' : TimeOK (dgetM (limitAttributes (dset volume_meta ("properties")
        (.dict (jsonDumpsProp (jsonDumpsProp properties ("block_device_mapping"))
          ("mappings"))))) ("created_at")) := by
      rw [limitAttributes_created]
      unfold dgetM
      rw [dget?_dset_ne _ _ _ _ hprop_ne_times.1]
      exact ht1
    have ht2' : TimeOK (dgetM (limitAttributes (dset volume_meta ("properties")
        (.dict (jsonDumpsProp (jsonDumpsProp properties ("block_device_mapping"))
          ("mappings"))))) ("updated_at")) := by
      rw [limitAttributes_updated]
      unfold dgetM
      rw [dget?_dset_ne _ _ _ _ hprop_ne_times.2.1]
      exact ht2
    have ht3' : TimeOK (dgetM (limitAttributes (dset volume_meta ("properties")
        (.dict (jsonDumpsProp (jsonDumpsProp properties ("block_device_mapping"))
          ("mappings"))))) ("deleted_at")) := by
      rw [limitAttributes_deleted]
      unfold dgetM
      rw [dget?_dset_ne _ _ _ _ hprop_ne_times.2.2]
      exact ht3
    obtain ⟨m2, hm2, hm2p⟩ := convertTimestamps_ok _ ht1' ht2' ht3'
    have hq2 : dget? m2 ("properties") = some (.dict (jsonDumpsProp
        (jsonDumpsProp properties ("block_device_mapping")) ("mappings"))) := by
      rw [hm2p _ hprop_ne_times.1 hprop_ne_times.2.1 hprop_ne_times.2.2, hM1]
    simp only [Bind.bind, Except.bind]
    rw [hm2]
    simp only [Except.bind]
    rw [convertFromString_restore m2 _ properties hq2 hQne
      (loads_dumps_slots properties hb hm)]
    exact ⟨_, rfl, dget?_dset_self _ _ _⟩

/-- C4 (witness): the round trip at a concrete record with a structured
block-device mapping and wire-format timestamps. -/
theorem c4_roundtrip_witness :
    ∃ out,
      (translateToCinder
          [(("id"), .jsn (.jstr ("v1"))), (("created_at"), .jsn (.jstr ("2012-01-01T01:02:03"))),
           (("properties"), .dict [(("block_device_mapping"),
             Json.arr (.cons (.obj (.cons ("device") (.jstr ("vda")) .nil)) .nil))])]).bind
        translateFromCinder = .ok out ∧
      dget? out ("properties") = some (.dict [(("block_device_mapping"),
        Json.arr (.cons (.obj (.cons ("device") (.jstr ("vda")) .nil)) .nil))]) :=
  c4_roundtrip _ _ (by decide)
    (nonstr_of_eq _ _
      (Json.arr (.cons (.obj (.cons ("device") (.jstr ("vda")) .nil)) .nil))
      (by decide) (by intro s; simp))
    (nonstr_of_none _ _ (by decide))
    (by right; exact ⟨("2012-01-01T01:02:03"), by decide, by decide⟩)
    (by left; decide) (by left; decide)
